import Mathlib

/-!
Verification development for the orbiqd-briefkit execution pipeline.

The definitions below are a shallow embedding of the Go sources:
pure logic is translated into Lean functions, stateful code into
explicit state passing, Go `error` chains into an inductive type, and
Go `map` values into association lists (Go map iteration order is
unspecified; the association-list order is a deterministic stand-in,
and the theorems about rendered argument vectors are stated so that
they do not depend on that order beyond membership and shape).
Timestamps are abstract naturals.
-/

namespace Briefkit

/-- Execution lifecycle states, from the `agent` package
(`ExecutionState` constants `created`, `started`, `running`,
`succeeded`, `failed`). -/
inductive ExecutionState where
  | created
  | started
  | running
  | succeeded
  | failed
deriving DecidableEq, Repr

/-- Rendering of an `ExecutionState` as its Go string constant. -/
def stateString : ExecutionState → String
  | .created => "created"
  | .started => "started"
  | .running => "running"
  | .succeeded => "succeeded"
  | .failed => "failed"

/-- Mirror of `agent.ExecutionStatus` (createdAt/updatedAt/finishedAt are
abstract naturals; `exitCode` and `error` are the optional fields). -/
structure ExecutionStatus where
  createdAt : Nat
  attempts : Nat
  updatedAt : Nat
  finishedAt : Option Nat
  state : ExecutionState
  exitCode : Option Int
  error : Option String
deriving DecidableEq, Repr

/-- Mirror of `agent.RuntimeResult`: the response text and the
conversation identifier produced by an adapter. -/
structure RuntimeResult where
  response : String
  conversationID : String
deriving DecidableEq, Repr

/-- Model of a Go error chain as produced by this code base.
`basic` is a plain error (`errors.New` / `fmt.Errorf` without `%w`),
`wrapped` is `fmt.Errorf("<context>: %w", cause)`, and the two
`runtimeExecution` constructors are `agent.RuntimeExecutionError`
with a nil (`Leaf`) or non-nil (`Wrap`) `Cause`. -/
inductive GoError where
  | basic (message : String)
  | wrapped (context : String) (cause : GoError)
  | runtimeExecutionLeaf (message : String) (exitCode : Option Int)
  | runtimeExecutionWrap (message : String) (exitCode : Option Int) (cause : GoError)
deriving DecidableEq, Repr

/-- Go `err.Error()` for the chain model. For
`RuntimeExecutionError` this follows `agent.RuntimeExecutionError.Error`:
the message when non-empty, else the cause's message, else the literal
"runtime execution error". -/
def goErrorMessage : GoError → String
  | .basic m => m
  | .wrapped c e => c ++ ": " ++ goErrorMessage e
  | .runtimeExecutionLeaf m _ => if m = "" then "runtime execution error" else m
  | .runtimeExecutionWrap m _ e => if m = "" then goErrorMessage e else m

/-- Go `errors.As(err, &runtimeErr)` for target `*RuntimeExecutionError`:
walk the `Unwrap` chain and return the first match (its message and
exit code). `RuntimeExecutionError.Unwrap` returns `Cause`, and
`wrapped` errors unwrap to their cause. -/
def errorsAsRuntimeExecution : GoError → Option (String × Option Int)
  | .basic _ => none
  | .wrapped _ e => errorsAsRuntimeExecution e
  | .runtimeExecutionLeaf m c => some (m, c)
  | .runtimeExecutionWrap m c _ => some (m, c)

/-- Whether the full unwrap chain contains a `RuntimeExecutionError`
whose `ExitCode` is set. -/
def chainHasRuntimeExitCode : GoError → Bool
  | .basic _ => false
  | .wrapped _ e => chainHasRuntimeExitCode e
  | .runtimeExecutionLeaf _ c => c.isSome
  | .runtimeExecutionWrap _ c e => c.isSome || chainHasRuntimeExitCode e

/-- Number of `RuntimeExecutionError` values in the unwrap chain.
The errors this code base produces contain at most one. -/
def runtimeErrorsInChain : GoError → Nat
  | .basic _ => 0
  | .wrapped _ e => runtimeErrorsInChain e
  | .runtimeExecutionLeaf _ _ => 1
  | .runtimeExecutionWrap _ _ e => 1 + runtimeErrorsInChain e

/-- Mirror of `RunnerCommand.finishExecutionWithError`
(internal/app/briefkit-runner/app.go): mark the status failed, stamp
`finishedAt` with the current time, store the error message, and set
the exit code exactly when `errors.As` finds a `RuntimeExecutionError`
(copying its possibly-absent exit code). -/
def finishExecutionWithError (status : ExecutionStatus) (err : GoError) (now : Nat) :
    ExecutionStatus :=
  let base := { status with
    state := ExecutionState.failed
    finishedAt := some now
    error := some (goErrorMessage err)
    exitCode := (none : Option Int) }
  match errorsAsRuntimeExecution err with
  | some (_, code) => { base with exitCode := code }
  | none => base

/-- Inputs of one `RunnerCommand.Run` invocation: the stored status,
the `--retry` flag, the outcome of `runtime.Execute` (spawn), the
outcome of `instance.Wait`, and the wall clock used for `finishedAt`.
Store reads (input, agent config) and the registry lookup are modelled
as succeeding; their failures return before the runtime is invoked. -/
structure RunnerWorld where
  status : ExecutionStatus
  retry : Bool
  executeResult : Except GoError Unit
  waitResult : Except GoError RuntimeResult
  now : Nat

/-- Observable outcome of `RunnerCommand.Run`: whether
`runtime.Execute` was invoked, the last status written through
`UpdateStatus` (the initial status when nothing was written), the
result handed to `SetResult` (whose succeeded transition lives in the
store), and the returned error message. -/
structure RunnerOutcome where
  runtimeInvoked : Bool
  writtenStatus : ExecutionStatus
  writtenResult : Option RuntimeResult
  returnedError : Option String

/-- Status mutation performed by the Runner immediately before invoking
the adapter (app.go lines 69-72): state `started`, attempts
incremented, error and exit code cleared. -/
def startedTransition (status : ExecutionStatus) : ExecutionStatus :=
  { status with
    state := ExecutionState.started
    attempts := status.attempts + 1
    error := (none : Option String)
    exitCode := (none : Option Int) }

/-- Mirror of `RunnerCommand.Run` (internal/app/briefkit-runner/app.go):
the state gate of lines 42-52, the `started` transition, the `Execute`
invocation, the `running` transition, and the `Wait` with terminal
handling. -/
def runnerRun (w : RunnerWorld) : RunnerOutcome :=
  if w.status.state ≠ ExecutionState.created ∧ w.retry = false then
    { runtimeInvoked := false
      writtenStatus := w.status
      writtenResult := none
      returnedError := some ("execution state is " ++ stateString w.status.state) }
  else if w.status.state ≠ ExecutionState.created ∧
      w.status.state ≠ ExecutionState.failed ∧ w.status.state ≠ ExecutionState.succeeded then
    { runtimeInvoked := false
      writtenStatus := w.status
      writtenResult := none
      returnedError := some "execution state must be created, failed, or succeeded to retry" }
  else
    match w.executeResult with
    | .error e =>
      { runtimeInvoked := true
        writtenStatus := finishExecutionWithError (startedTransition w.status) e w.now
        writtenResult := none
        returnedError := some ("execute runtime: " ++ goErrorMessage e) }
    | .ok _ =>
      match w.waitResult with
      | .error e =>
        { runtimeInvoked := true
          writtenStatus := finishExecutionWithError
            { startedTransition w.status with state := ExecutionState.running } e w.now
          writtenResult := none
          returnedError := some ("wait for runtime: " ++ goErrorMessage e) }
      | .ok r =>
        { runtimeInvoked := true
          writtenStatus := { startedTransition w.status with state := ExecutionState.running }
          writtenResult := some r
          returnedError := none }

lemma runtimeErrorsInChain_eq_zero_no_exit {e : GoError}
    (h : runtimeErrorsInChain e = 0) : chainHasRuntimeExitCode e = false := by
  induction e with
  | basic m => rfl
  | wrapped c e ih => simpa [runtimeErrorsInChain, chainHasRuntimeExitCode] using ih (by
      simpa [runtimeErrorsInChain] using h)
  | runtimeExecutionLeaf m c => simp [runtimeErrorsInChain] at h
  | runtimeExecutionWrap m c e ih => simp [runtimeErrorsInChain] at h

lemma errorsAs_exit_iff_chain {e : GoError} (h : runtimeErrorsInChain e ≤ 1) :
    ((errorsAsRuntimeExecution e).bind Prod.snd).isSome = chainHasRuntimeExitCode e := by
  induction e with
  | basic m => rfl
  | wrapped c e ih =>
    simpa [errorsAsRuntimeExecution, chainHasRuntimeExitCode] using ih (by
      simpa [runtimeErrorsInChain] using h)
  | runtimeExecutionLeaf m c =>
    simp [errorsAsRuntimeExecution, chainHasRuntimeExitCode]
  | runtimeExecutionWrap m c e ih =>
    have hz : runtimeErrorsInChain e = 0 := by
      simp [runtimeErrorsInChain] at h
      omega
    simp [errorsAsRuntimeExecution, chainHasRuntimeExitCode,
      runtimeErrorsInChain_eq_zero_no_exit hz]

/-- C1: whenever the Runner's runtime invocation fails (adapter spawn
failure or an error returned from the instance's Wait), the Runner
writes a terminal status with state failed, `finishedAt` set to the
current timestamp, `error` set to the failing error's message, and
`exitCode` set if and only if the error chain contains a
`RuntimeExecutionError` carrying an exit code (always copying the exit
code of the `errors.As` match). -/
theorem C1_runner_failure_terminal_status (w : RunnerWorld) (e : GoError)
    (hchain : runtimeErrorsInChain e ≤ 1)
    (hgate : w.status.state = ExecutionState.created ∨
      (w.retry = true ∧ (w.status.state = ExecutionState.failed ∨
        w.status.state = ExecutionState.succeeded)))
    (hfail : w.executeResult = .error e ∨
      (w.executeResult = .ok () ∧ w.waitResult = .error e)) :
    (runnerRun w).writtenStatus.state = ExecutionState.failed ∧
    (runnerRun w).writtenStatus.finishedAt = some w.now ∧
    (runnerRun w).writtenStatus.error = some (goErrorMessage e) ∧
    (runnerRun w).writtenStatus.exitCode = (errorsAsRuntimeExecution e).bind Prod.snd ∧
    ((runnerRun w).writtenStatus.exitCode.isSome = chainHasRuntimeExitCode e) := by
  have hgate1 : ¬ (w.status.state ≠ ExecutionState.created ∧ w.retry = false) := by
    rcases hgate with h | ⟨hr, _⟩
    · exact fun hc => hc.1 h
    · exact fun hc => by simp [hr] at hc
  have hgate2 : ¬ (w.status.state ≠ ExecutionState.created ∧
      w.status.state ≠ ExecutionState.failed ∧ w.status.state ≠ ExecutionState.succeeded) := by
    rcases hgate with h | ⟨_, hf | hs⟩
    · exact fun hc => hc.1 h
    · exact fun hc => hc.2.1 hf
    · exact fun hc => hc.2.2 hs
  have hexit : ∀ st : ExecutionStatus,
      (finishExecutionWithError st e w.now).state = ExecutionState.failed ∧
      (finishExecutionWithError st e w.now).finishedAt = some w.now ∧
      (finishExecutionWithError st e w.now).error = some (goErrorMessage e) ∧
      (finishExecutionWithError st e w.now).exitCode =
        (errorsAsRuntimeExecution e).bind Prod.snd := by
    intro st
    unfold finishExecutionWithError
    cases h : errorsAsRuntimeExecution e with
    | none => simp [h]
    | some p => cases p with
      | mk m c => simp [h]
  have hmain : ∀ st : ExecutionStatus,
      (finishExecutionWithError st e w.now).state = ExecutionState.failed ∧
      (finishExecutionWithError st e w.now).finishedAt = some w.now ∧
      (finishExecutionWithError st e w.now).error = some (goErrorMessage e) ∧
      (finishExecutionWithError st e w.now).exitCode =
        (errorsAsRuntimeExecution e).bind Prod.snd ∧
      (finishExecutionWithError st e w.now).exitCode.isSome = chainHasRuntimeExitCode e := by
    intro st
    obtain ⟨h1, h2, h3, h4⟩ := hexit st
    exact ⟨h1, h2, h3, h4, by rw [h4]; exact errorsAs_exit_iff_chain hchain⟩
  rcases hfail with hex | ⟨hok, hw⟩
  · have hrun : runnerRun w = RunnerOutcome.mk true
        (finishExecutionWithError (startedTransition w.status) e w.now) none
        (some ("execute runtime: " ++ goErrorMessage e)) := by
      unfold runnerRun
      rw [if_neg hgate1, if_neg hgate2, hex]
    rw [hrun]
    exact hmain _
  · have hrun : runnerRun w = RunnerOutcome.mk true
        (finishExecutionWithError
          { startedTransition w.status with state := ExecutionState.running } e w.now) none
        (some ("wait for runtime: " ++ goErrorMessage e)) := by
      unfold runnerRun
      rw [if_neg hgate1, if_neg hgate2, hok, hw]
    rw [hrun]
    exact hmain _

/-- Fresh `created` status used by the concrete witnesses. -/
def exampleCreatedStatus : ExecutionStatus :=
  ExecutionStatus.mk 0 0 0 none ExecutionState.created none none

/-- Error used by the C1 witness: a `RuntimeExecutionError` with exit
code 2 and no cause, as produced for a non-zero child exit. -/
def exampleExitError : GoError :=
  GoError.runtimeExecutionLeaf "boom" (some 2)

/-- World used by the C1 witness: a created execution whose Wait fails
with `exampleExitError`. -/
def exampleFailWorld : RunnerWorld :=
  RunnerWorld.mk exampleCreatedStatus false (Except.ok ())
    (Except.error exampleExitError) 7

/-- Witness for C1 at a concrete world: a created execution whose Wait
fails with a `RuntimeExecutionError` carrying exit code 2. -/
theorem C1_runner_failure_terminal_status_witness :
    (runnerRun exampleFailWorld).writtenStatus.state = ExecutionState.failed ∧
    (runnerRun exampleFailWorld).writtenStatus.finishedAt = some 7 ∧
    (runnerRun exampleFailWorld).writtenStatus.error = some (goErrorMessage exampleExitError) ∧
    (runnerRun exampleFailWorld).writtenStatus.exitCode =
      (errorsAsRuntimeExecution exampleExitError).bind Prod.snd ∧
    (runnerRun exampleFailWorld).writtenStatus.exitCode.isSome =
      chainHasRuntimeExitCode exampleExitError :=
  C1_runner_failure_terminal_status exampleFailWorld exampleExitError
    (by decide) (Or.inl rfl) (Or.inr ⟨rfl, rfl⟩)

/-- C2: the Runner fails fast without invoking the runtime adapter when
the execution state is not `created` and `--retry` was not supplied;
with `--retry` it proceeds exactly when the state is `created`,
`failed`, or `succeeded`, and returns an error for `started` and
`running`. -/
theorem C2_runner_state_gate (w : RunnerWorld) :
    (w.retry = false → w.status.state ≠ ExecutionState.created →
      (runnerRun w).runtimeInvoked = false ∧ (runnerRun w).returnedError =
        some ("execution state is " ++ stateString w.status.state)) ∧
    (w.retry = true →
      ((runnerRun w).runtimeInvoked = true ↔
        (w.status.state = ExecutionState.created ∨ w.status.state = ExecutionState.failed ∨
          w.status.state = ExecutionState.succeeded))) ∧
    (w.retry = true →
      (w.status.state = ExecutionState.started ∨ w.status.state = ExecutionState.running) →
      (runnerRun w).runtimeInvoked = false ∧ (runnerRun w).returnedError =
        some "execution state must be created, failed, or succeeded to retry") := by
  refine ⟨?_, ?_, ?_⟩
  · intro hr hs
    rw [runnerRun, if_pos ⟨hs, hr⟩]
    exact ⟨rfl, rfl⟩
  · intro hr
    constructor
    · intro hinv
      by_contra hno
      push_neg at hno
      have hneg : w.status.state ≠ ExecutionState.created ∧
          w.status.state ≠ ExecutionState.failed ∧
          w.status.state ≠ ExecutionState.succeeded := ⟨hno.1, hno.2.1, hno.2.2⟩
      have h1 : ¬ (w.status.state ≠ ExecutionState.created ∧ w.retry = false) := by
        intro hc
        rw [hr] at hc
        exact absurd hc.2 (by decide)
      rw [runnerRun, if_neg h1, if_pos hneg] at hinv
      exact Bool.noConfusion hinv
    · intro hs
      have h1 : ¬ (w.status.state ≠ ExecutionState.created ∧ w.retry = false) := by
        intro hc
        rw [hr] at hc
        exact absurd hc.2 (by decide)
      have h2 : ¬ (w.status.state ≠ ExecutionState.created ∧
          w.status.state ≠ ExecutionState.failed ∧
          w.status.state ≠ ExecutionState.succeeded) := by
        rcases hs with h | h | h
        · exact fun hc => hc.1 h
        · exact fun hc => hc.2.1 h
        · exact fun hc => hc.2.2 h
      rw [runnerRun, if_neg h1, if_neg h2]
      cases hex : w.executeResult with
      | error e => rfl
      | ok u =>
        cases hw : w.waitResult with
        | error e => rfl
        | ok r => rfl
  · intro hr hs
    have h1 : ¬ (w.status.state ≠ ExecutionState.created ∧ w.retry = false) := by
      intro hc
      rw [hr] at hc
      exact absurd hc.2 (by decide)
    have h2 : w.status.state ≠ ExecutionState.created ∧
        w.status.state ≠ ExecutionState.failed ∧
        w.status.state ≠ ExecutionState.succeeded := by
      rcases hs with h | h <;> rw [h] <;> exact ⟨by simp, by simp, by simp⟩
    rw [runnerRun, if_neg h1, if_pos h2]
    exact ⟨rfl, rfl⟩

/-- World used by the C2 witness: a `running` execution retried. -/
def exampleRunningRetryWorld : RunnerWorld :=
  RunnerWorld.mk (ExecutionStatus.mk 0 1 0 none ExecutionState.running none none) true
    (Except.ok ()) (Except.ok (RuntimeResult.mk "" "")) 0

/-- Witness for C2 at a concrete world: a `running` execution with
`--retry` supplied is rejected without invoking the runtime. -/
theorem C2_runner_state_gate_witness :
    (runnerRun exampleRunningRetryWorld).runtimeInvoked = false ∧
    (runnerRun exampleRunningRetryWorld).returnedError =
      some "execution state must be created, failed, or succeeded to retry" :=
  (C2_runner_state_gate exampleRunningRetryWorld).2.2 rfl (Or.inr rfl)

/-! JSON stream parsing shared by the claude and gemini adapters.

The adapters read stdout line by line (`bufio.Scanner`), trim the line,
skip empty lines and lines that do not start with an opening brace,
and feed the rest to `encoding/json.Unmarshal` into a per-kind event
struct. The JSON grammar below models `encoding/json` for the
constructs these event structs use; object keys are matched against
the struct's JSON tags case-insensitively (ASCII), later duplicate
keys overwrite earlier ones, `null` leaves a field unchanged, and any
type mismatch fails the whole unmarshal (the adapter then skips the
line). -/

/-- Opening-brace character (written by code point to keep string
literals brace-free). -/
def lbraceChar : Char := Char.ofNat 123

/-- Closing-brace character. -/
def rbraceChar : Char := Char.ofNat 125

/-- Model of Go `unicode.IsSpace` on the Latin-1 range (the only
range these inputs exercise): space, tab, newline, vertical tab, form
feed, carriage return, NEL and NBSP. -/
def goIsSpace (c : Char) : Bool :=
  c = ' ' || c = '\t' || c = '\n' || c = Char.ofNat 11 || c = Char.ofNat 12 ||
    c = '\r' || c = Char.ofNat 133 || c = Char.ofNat 160

/-- Model of Go `strings.TrimSpace`. -/
def goTrimSpace (s : String) : String :=
  String.mk (((s.data.dropWhile goIsSpace).reverse.dropWhile goIsSpace).reverse)

/-- Model of Go `strings.HasPrefix(line, leftBrace)` for a one-character
pattern: the first character is an opening brace. -/
def startsWithLbrace (s : String) : Bool :=
  match s.data with
  | [] => false
  | c :: _ => c = lbraceChar

/-- JSON values. Numbers keep their raw spelling: none of the decoded
event fields is numeric, so a number only ever needs to be recognized
(and, for the MCP-config model, carried through unchanged). -/
inductive Json where
  | null
  | bool (b : Bool)
  | num (raw : String)
  | str (s : String)
  | arr (elems : List Json)
  | obj (members : List (String × Json))

/-- JSON insignificant whitespace (RFC 8259, as in `encoding/json`). -/
def jsonWs (c : Char) : Bool :=
  c = ' ' || c = '\t' || c = '\n' || c = '\r'

/-- ASCII hexadecimal digit test. -/
def isHexDigit (c : Char) : Bool :=
  c.isDigit || ('a' ≤ c && c ≤ 'f') || ('A' ≤ c && c ≤ 'F')

/-- Value of an ASCII hexadecimal digit. -/
def hexVal (c : Char) : Nat :=
  if c.isDigit then c.toNat - 48
  else if 'a' ≤ c && c ≤ 'f' then c.toNat - 87
  else c.toNat - 55

/-- Read four hexadecimal digits (the payload of a `\\u` escape). -/
def parseU4 : List Char → Option (Nat × List Char)
  | h1 :: h2 :: h3 :: h4 :: rest =>
    if isHexDigit h1 && isHexDigit h2 && isHexDigit h3 && isHexDigit h4 then
      some (hexVal h1 * 4096 + hexVal h2 * 256 + hexVal h3 * 16 + hexVal h4, rest)
    else none
  | _ => none

/-- Prepend a decoded character to a string-body parse result. -/
def consParsed (d : Char) (r : Option (List Char × List Char)) :
    Option (List Char × List Char) :=
  r.map (fun p => (d :: p.1, p.2))

/-- Parse the body of a JSON string (after the opening quote), decoding
escapes the way `encoding/json` does, including surrogate pairs and the
replacement character for unpaired surrogates. Returns the decoded
characters and the input after the closing quote. -/
def parseStringBody : Nat → List Char → Option (List Char × List Char)
  | 0, _ => none
  | _, [] => none
  | fuel + 1, c :: rest =>
    if c = '"' then some ([], rest)
    else if c = '\\' then
      match rest with
      | [] => none
      | e :: rest2 =>
        if e = 'u' then
          match parseU4 rest2 with
          | none => none
          | some (n, rest3) =>
            if 55296 ≤ n && n ≤ 56319 then
              match rest3 with
              | b1 :: u1 :: tail =>
                if b1 = '\\' && u1 = 'u' then
                  match parseU4 tail with
                  | some (m, rest4) =>
                    if 56320 ≤ m && m ≤ 57343 then
                      consParsed (Char.ofNat (65536 + (n - 55296) * 1024 + (m - 56320)))
                        (parseStringBody fuel rest4)
                    else consParsed (Char.ofNat 65533) (parseStringBody fuel rest3)
                  | none => consParsed (Char.ofNat 65533) (parseStringBody fuel rest3)
                else consParsed (Char.ofNat 65533) (parseStringBody fuel rest3)
              | _ => consParsed (Char.ofNat 65533) (parseStringBody fuel rest3)
            else if 56320 ≤ n && n ≤ 57343 then
              consParsed (Char.ofNat 65533) (parseStringBody fuel rest3)
            else consParsed (Char.ofNat n) (parseStringBody fuel rest3)
        else
          match
            (if e = '"' then some '"'
             else if e = '\\' then some '\\'
             else if e = '/' then some '/'
             else if e = 'b' then some (Char.ofNat 8)
             else if e = 'f' then some (Char.ofNat 12)
             else if e = 'n' then some '\n'
             else if e = 'r' then some '\r'
             else if e = 't' then some '\t'
             else none) with
          | some d => consParsed d (parseStringBody fuel rest2)
          | none => none
    else if c.toNat < 32 then none
    else consParsed c (parseStringBody fuel rest)

/-- Parse a JSON number starting at the given characters, returning its
raw spelling and the rest of the input. -/
def parseNumberBody (cs : List Char) : Option (List Char × List Char) :=
  let (sign, cs1) :=
    match cs with
    | '-' :: t => ([('-' : Char)], t)
    | _ => (([] : List Char), cs)
  match cs1 with
  | [] => none
  | c :: t =>
    if ¬ c.isDigit then none
    else
      let (intPart, r1) :=
        if c = '0' then ([c], t) else (cs1.takeWhile Char.isDigit, cs1.dropWhile Char.isDigit)
      let fracRes : Option (List Char × List Char) :=
        match r1 with
        | '.' :: d :: ft =>
          if d.isDigit then
            some (('.' : Char) :: (d :: ft).takeWhile Char.isDigit,
              (d :: ft).dropWhile Char.isDigit)
          else none
        | ['.'] => none
        | _ => some (([] : List Char), r1)
      match fracRes with
      | none => none
      | some (fracPart, r2) =>
        match r2 with
        | e :: et =>
          if e = 'e' || e = 'E' then
            let (esign, et2) :=
              match et with
              | s :: st => if s = '+' || s = '-' then ([s], st) else (([] : List Char), et)
              | [] => (([] : List Char), et)
            let digits := et2.takeWhile Char.isDigit
            if digits = [] then none
            else some (sign ++ intPart ++ fracPart ++ [e] ++ esign ++ digits,
              et2.dropWhile Char.isDigit)
          else some (sign ++ intPart ++ fracPart, r2)
        | [] => some (sign ++ intPart ++ fracPart, r2)

mutual

/-- Parse one JSON value (fuel-indexed; the initial fuel of one more
than the input length always suffices because every recursive call
strictly consumes input). -/
def parseJsonValue : Nat → List Char → Option (Json × List Char)
  | 0, _ => none
  | fuel + 1, cs =>
    match cs.dropWhile jsonWs with
    | [] => none
    | c :: rest =>
      if c = '"' then
        match parseStringBody (rest.length + 1) rest with
        | some (content, rem) => some (Json.str (String.mk content), rem)
        | none => none
      else if c = lbraceChar then
        match rest.dropWhile jsonWs with
        | [] => none
        | c2 :: rest2 =>
          if c2 = rbraceChar then some (Json.obj [], rest2)
          else
            match parseObjectMembers fuel (rest.dropWhile jsonWs) with
            | some (ms, rem) => some (Json.obj ms, rem)
            | none => none
      else if c = '[' then
        match rest.dropWhile jsonWs with
        | [] => none
        | c2 :: rest2 =>
          if c2 = ']' then some (Json.arr [], rest2)
          else
            match parseArrayElements fuel (rest.dropWhile jsonWs) with
            | some (xs, rem) => some (Json.arr xs, rem)
            | none => none
      else if c = 't' then
        match rest with
        | 'r' :: 'u' :: 'e' :: rem => some (Json.bool true, rem)
        | _ => none
      else if c = 'f' then
        match rest with
        | 'a' :: 'l' :: 's' :: 'e' :: rem => some (Json.bool false, rem)
        | _ => none
      else if c = 'n' then
        match rest with
        | 'u' :: 'l' :: 'l' :: rem => some (Json.null, rem)
        | _ => none
      else
        match parseNumberBody (c :: rest) with
        | some (raw, rem) => some (Json.num (String.mk raw), rem)
        | none => none

/-- Parse the members of a JSON object, positioned at the first
character of a key string. -/
def parseObjectMembers : Nat → List Char → Option (List (String × Json) × List Char)
  | 0, _ => none
  | fuel + 1, cs =>
    match cs with
    | c :: rest =>
      if c = '"' then
        match parseStringBody (rest.length + 1) rest with
        | some (key, r1) =>
          match r1.dropWhile jsonWs with
          | ':' :: r2 =>
            match parseJsonValue fuel r2 with
            | some (v, r3) =>
              match r3.dropWhile jsonWs with
              | ',' :: r4 =>
                match parseObjectMembers fuel (r4.dropWhile jsonWs) with
                | some (ms, r5) => some ((String.mk key, v) :: ms, r5)
                | none => none
              | c5 :: r5 =>
                if c5 = rbraceChar then some ([(String.mk key, v)], r5) else none
              | [] => none
            | none => none
          | _ => none
        | none => none
      else none
    | [] => none

/-- Parse the elements of a JSON array, positioned at the first
character of an element. -/
def parseArrayElements : Nat → List Char → Option (List Json × List Char)
  | 0, _ => none
  | fuel + 1, cs =>
    match parseJsonValue fuel cs with
    | some (v, r1) =>
      match r1.dropWhile jsonWs with
      | ',' :: r2 =>
        match parseArrayElements fuel r2 with
        | some (xs, rem) => some (v :: xs, rem)
        | none => none
      | c :: r2 => if c = ']' then some ([v], r2) else none
      | [] => none
    | none => none

end

/-- Parse a whole string as one JSON value (as `json.Unmarshal` does:
trailing non-whitespace is an error). -/
def parseJson (s : String) : Option Json :=
  match parseJsonValue (s.length + 1) s.data with
  | some (j, rest) => if rest.dropWhile jsonWs = [] then some j else none
  | none => none

/-- ASCII-lowercased string, modelling the (ASCII-relevant part of the)
case-insensitive field-name matching of `encoding/json`. -/
def asciiLower (s : String) : String :=
  String.mk (s.data.map Char.toLower)

/-- Field-name match of `encoding/json`: the incoming key equals the
struct tag up to ASCII case. -/
def goFieldMatch (key tag : String) : Bool :=
  asciiLower key = tag

/-- Decode a JSON value into a Go `string` field: `null` leaves the
field unchanged, a string overwrites it, anything else is an
unmarshalling error. -/
def decodeStringField : Json → Option (Option String)
  | Json.null => some none
  | Json.str s => some (some s)
  | _ => none

/-- Decode a JSON value into a Go `bool` field. -/
def decodeBoolField : Json → Option (Option Bool)
  | Json.null => some none
  | Json.bool b => some (some b)
  | _ => none

/-- One element of `claudeEvent.Message.Content`
(internal/pkg/runtime/claude/instance.go): a content block with its
`type` and optional `text`. -/
structure ClaudeContent where
  ctype : String
  text : String
deriving DecidableEq, Repr

/-- The `claudeEvent` struct of the claude adapter: `type`, `subtype`,
`session_id`, `result`, and the message content blocks. -/
structure ClaudeEvent where
  etype : String
  subtype : String
  sessionID : String
  result : String
  content : List ClaudeContent
deriving DecidableEq, Repr

/-- Apply one JSON object member to a `ClaudeContent` under Go's
decoding rules. -/
def applyClaudeContentField (c : ClaudeContent) (kv : String × Json) : Option ClaudeContent :=
  if goFieldMatch kv.1 "type" then
    match decodeStringField kv.2 with
    | some (some s) => some { c with ctype := s }
    | some none => some c
    | none => none
  else if goFieldMatch kv.1 "text" then
    match decodeStringField kv.2 with
    | some (some s) => some { c with text := s }
    | some none => some c
    | none => none
  else some c

/-- Decode one element of the `content` array. -/
def decodeClaudeContent : Json → Option ClaudeContent
  | Json.null => some (ClaudeContent.mk "" "")
  | Json.obj ms => List.foldlM applyClaudeContentField (ClaudeContent.mk "" "") ms
  | _ => none

/-- Apply one member of the `message` object: only `content` (an array
of content blocks) is a known field. -/
def applyClaudeMessageField (cur : List ClaudeContent) (kv : String × Json) :
    Option (List ClaudeContent) :=
  if goFieldMatch kv.1 "content" then
    match kv.2 with
    | Json.null => some cur
    | Json.arr xs => xs.mapM decodeClaudeContent
    | _ => none
  else some cur

/-- Apply one top-level member of a claude event object. -/
def applyClaudeEventField (e : ClaudeEvent) (kv : String × Json) : Option ClaudeEvent :=
  if goFieldMatch kv.1 "type" then
    match decodeStringField kv.2 with
    | some (some s) => some { e with etype := s }
    | some none => some e
    | none => none
  else if goFieldMatch kv.1 "subtype" then
    match decodeStringField kv.2 with
    | some (some s) => some { e with subtype := s }
    | some none => some e
    | none => none
  else if goFieldMatch kv.1 "session_id" then
    match decodeStringField kv.2 with
    | some (some s) => some { e with sessionID := s }
    | some none => some e
    | none => none
  else if goFieldMatch kv.1 "result" then
    match decodeStringField kv.2 with
    | some (some s) => some { e with result := s }
    | some none => some e
    | none => none
  else if goFieldMatch kv.1 "message" then
    match kv.2 with
    | Json.null => some e
    | Json.obj ms =>
      match List.foldlM applyClaudeMessageField e.content ms with
      | some cur => some { e with content := cur }
      | none => none
    | _ => none
  else some e

/-- Go `json.Unmarshal` of one line into `claudeEvent`. -/
def decodeClaudeEvent : Json → Option ClaudeEvent
  | Json.null => some (ClaudeEvent.mk "" "" "" "" [])
  | Json.obj ms => List.foldlM applyClaudeEventField (ClaudeEvent.mk "" "" "" "" []) ms
  | _ => none

/-- The per-event state transition of `Instance.watchClaudeEvents`
(internal/pkg/runtime/claude/instance.go lines 210-225): the switch on
the event type. -/
def claudeStep (st : RuntimeResult) (e : ClaudeEvent) : RuntimeResult :=
  if e.etype = "system" then
    if e.subtype = "init" ∧ e.sessionID ≠ "" then
      { st with conversationID := e.sessionID }
    else st
  else if e.etype = "assistant" then
    { st with response := (e.content.foldl
        (fun acc c => if c.ctype = "text" then acc ++ c.text else acc) st.response) }
  else if e.etype = "result" then
    if e.subtype = "success" ∧ e.result ≠ "" then
      { st with response := e.result }
    else st
  else st

/-- Line classification and unmarshalling of `watchClaudeEvents`
(lines 189-207): trim, skip blank lines and lines that do not start
with an opening brace, then unmarshal; an unmarshalling failure is
skipped. `some event` means the line reaches the switch. -/
def decodeClaudeLine (line : String) : Option ClaudeEvent :=
  let l := goTrimSpace line
  if l = "" then none
  else if ¬ startsWithLbrace l then none
  else
    match parseJson l with
    | none => none
    | some j => decodeClaudeEvent j

/-- One loop iteration of `watchClaudeEvents` on one stdout line. -/
def claudeProcessLine (st : RuntimeResult) (line : String) : RuntimeResult :=
  match decodeClaudeLine line with
  | none => st
  | some e => claudeStep st e

/-- The whole scanner loop of `Instance.watchClaudeEvents` on a list of
stdout lines, returning the accumulated `instance.result`. -/
def watchClaudeEvents (lines : List String) : RuntimeResult :=
  lines.foldl claudeProcessLine (RuntimeResult.mk "" "")

/-- The `geminiEvent` struct of the gemini adapter: `type`,
`session_id`, `role`, `content`, `delta`. -/
structure GeminiEvent where
  etype : String
  sessionID : String
  role : String
  content : String
  delta : Bool
deriving DecidableEq, Repr

/-- Apply one top-level member of a gemini event object. -/
def applyGeminiEventField (e : GeminiEvent) (kv : String × Json) : Option GeminiEvent :=
  if goFieldMatch kv.1 "type" then
    match decodeStringField kv.2 with
    | some (some s) => some { e with etype := s }
    | some none => some e
    | none => none
  else if goFieldMatch kv.1 "session_id" then
    match decodeStringField kv.2 with
    | some (some s) => some { e with sessionID := s }
    | some none => some e
    | none => none
  else if goFieldMatch kv.1 "role" then
    match decodeStringField kv.2 with
    | some (some s) => some { e with role := s }
    | some none => some e
    | none => none
  else if goFieldMatch kv.1 "content" then
    match decodeStringField kv.2 with
    | some (some s) => some { e with content := s }
    | some none => some e
    | none => none
  else if goFieldMatch kv.1 "delta" then
    match decodeBoolField kv.2 with
    | some (some b) => some { e with delta := b }
    | some none => some e
    | none => none
  else some e

/-- Go `json.Unmarshal` of one line into `geminiEvent`. -/
def decodeGeminiEvent : Json → Option GeminiEvent
  | Json.null => some (GeminiEvent.mk "" "" "" "" false)
  | Json.obj ms => List.foldlM applyGeminiEventField (GeminiEvent.mk "" "" "" "" false) ms
  | _ => none

/-- The per-event state transition of `Instance.watchGeminiEvents`
(internal/pkg/runtime/gemini/instance.go lines 218-228). -/
def geminiStep (st : RuntimeResult) (e : GeminiEvent) : RuntimeResult :=
  if e.etype = "init" then
    if e.sessionID ≠ "" then { st with conversationID := e.sessionID } else st
  else if e.etype = "message" then
    if e.role = "assistant" then { st with response := st.response ++ e.content } else st
  else st

/-- Line classification and unmarshalling of `watchGeminiEvents`
(lines 194-214). -/
def decodeGeminiLine (line : String) : Option GeminiEvent :=
  let l := goTrimSpace line
  if l = "" then none
  else if ¬ startsWithLbrace l then none
  else
    match parseJson l with
    | none => none
    | some j => decodeGeminiEvent j

/-- One loop iteration of `watchGeminiEvents` on one stdout line. -/
def geminiProcessLine (st : RuntimeResult) (line : String) : RuntimeResult :=
  match decodeGeminiLine line with
  | none => st
  | some e => geminiStep st e

/-- The whole scanner loop of `Instance.watchGeminiEvents` on a list of
stdout lines. -/
def watchGeminiEvents (lines : List String) : RuntimeResult :=
  lines.foldl geminiProcessLine (RuntimeResult.mk "" "")

lemma foldl_filter_isSome {σ α β : Type} (process : σ → α → σ) (decode : α → Option β)
    (hskip : ∀ s l, decode l = none → process s l = s) :
    ∀ (ls : List α) (s : σ), ls.foldl process s =
      (ls.filter (fun l => (decode l).isSome)).foldl process s := by
  intro ls
  induction ls with
  | nil => intro s; rfl
  | cons l t ih =>
    intro s
    rw [List.foldl_cons]
    cases h : decode l with
    | none => rw [hskip s l h]; simp [List.filter_cons, h, ih]
    | some e => simp [List.filter_cons, h, ih]

/-- C4: the stream parsers of the claude and gemini adapters produce
the same (response, conversationId) on any stdout line sequence as on
the subsequence of lines that decode to an event: empty lines, lines
not starting with an opening brace, and brace-led lines that fail to
unmarshal are skipped without changing the parse state. -/
theorem C4_nonjson_tolerance (lines : List String) :
    watchClaudeEvents lines =
      watchClaudeEvents (lines.filter (fun l => (decodeClaudeLine l).isSome)) ∧
    watchGeminiEvents lines =
      watchGeminiEvents (lines.filter (fun l => (decodeGeminiLine l).isSome)) := by
  constructor
  · exact foldl_filter_isSome claudeProcessLine decodeClaudeLine
      (fun s l h => by simp [claudeProcessLine, h]) lines _
  · exact foldl_filter_isSome geminiProcessLine decodeGeminiLine
      (fun s l h => by simp [geminiProcessLine, h]) lines _

/-- C10: in the claude stream parser, a result/success event with an
empty `result` leaves the accumulated response unchanged, and a
system/init event with an empty `session_id` leaves the conversation
id unchanged. -/
theorem C10_empty_guards (st : RuntimeResult) (s r : String) (c : List ClaudeContent) :
    claudeStep st (ClaudeEvent.mk "result" "success" s "" c) = st ∧
    claudeStep st (ClaudeEvent.mk "system" "init" "" r c) = st := by
  constructor <;> simp [claudeStep]

/-- Whether a claude event overwrites the response: result/success with
a non-empty result. -/
def overwritesResponse (e : ClaudeEvent) : Bool :=
  e.etype == "result" && e.subtype == "success" && e.result != ""

/-- Whether a claude event sets the conversation id: system/init with a
non-empty session id. -/
def setsConversation (e : ClaudeEvent) : Bool :=
  e.etype == "system" && e.subtype == "init" && e.sessionID != ""

/-- Text an assistant event appends: the concatenation of its text
content blocks (empty for any other event type). -/
def assistantText (e : ClaudeEvent) : String :=
  if e.etype = "assistant" then
    e.content.foldl (fun acc c => if c.ctype = "text" then acc ++ c.text else acc) ""
  else ""

/-- Concatenation of the assistant text of a list of events. -/
def concatAssistantText : List ClaudeEvent → String
  | [] => ""
  | e :: rest => assistantText e ++ concatAssistantText rest

/-- Response predicted by the claim as stated: the `result` of the last
result/success event when one occurs, else the concatenation of
assistant text. -/
def claimedClaudeResponse (events : List ClaudeEvent) : String :=
  match (events.filter (fun e => e.etype == "result" && e.subtype == "success")).getLast? with
  | some e => e.result
  | none => concatAssistantText events

/-- Split at the last overwriting success event: its result together
with the events after it. -/
def lastSuccessSplit : List ClaudeEvent → Option (String × List ClaudeEvent)
  | [] => none
  | e :: rest =>
    match lastSuccessSplit rest with
    | some p => some p
    | none => if overwritesResponse e then some (e.result, rest) else none

/-- Final response under the amended claim: the last non-empty success
result followed by the assistant text emitted after it, or the
concatenation of all assistant text when no such result occurs. -/
def amendedClaudeResponse (events : List ClaudeEvent) : String :=
  match lastSuccessSplit events with
  | some (r, tail) => r ++ concatAssistantText tail
  | none => concatAssistantText events

/-- Conversation id under the amended claim: the session id of the last
system/init event with a non-empty session id (empty if none). -/
def lastInitSession (events : List ClaudeEvent) : String :=
  events.foldl (fun acc e => if setsConversation e then e.sessionID else acc) ""

lemma appendFoldText : ∀ (cs : List ClaudeContent) (a : String),
    cs.foldl (fun acc c => if c.ctype = "text" then acc ++ c.text else acc) a =
      a ++ cs.foldl (fun acc c => if c.ctype = "text" then acc ++ c.text else acc) "" := by
  intro cs
  induction cs with
  | nil => intro a; simp
  | cons c t ih =>
    intro a
    rw [List.foldl_cons, List.foldl_cons]
    by_cases h : c.ctype = "text"
    · rw [if_pos h, if_pos h, ih (a ++ c.text), ih ("" ++ c.text)]
      rw [String.append_assoc]
      simp
    · rw [if_neg h, if_neg h, ih a]

lemma claudeStep_response (st : RuntimeResult) (e : ClaudeEvent) :
    (claudeStep st e).response =
      (if overwritesResponse e then e.result else st.response ++ assistantText e) := by
  by_cases h1 : e.etype = "system"
  · have hov : overwritesResponse e = false := by simp [overwritesResponse, h1]
    simp only [claudeStep, assistantText, h1, hov, Bool.false_eq_true, if_false, if_true,
      String.append_empty]
    have : ("system" : String) = "assistant" ↔ False := by simp
    simp only [this, if_false, if_pos rfl]
    split <;> simp
  · by_cases h2 : e.etype = "assistant"
    · have hov : overwritesResponse e = false := by simp [overwritesResponse, h2]
      simp [claudeStep, assistantText, h1, h2, hov]
      exact appendFoldText e.content st.response
    · by_cases h3 : e.etype = "result"
      · by_cases h4 : e.subtype = "success" <;> by_cases h5 : e.result = "" <;>
          simp [claudeStep, overwritesResponse, assistantText, h1, h2, h3, h4, h5]
      · have hov : overwritesResponse e = false := by simp [overwritesResponse, h3]
        simp [claudeStep, assistantText, h1, h2, h3, hov]

lemma claudeStep_conversation (st : RuntimeResult) (e : ClaudeEvent) :
    (claudeStep st e).conversationID =
      (if setsConversation e then e.sessionID else st.conversationID) := by
  by_cases h1 : e.etype = "system"
  · by_cases h2 : e.subtype = "init" <;> by_cases h3 : e.sessionID = "" <;>
      simp [claudeStep, setsConversation, h1, h2, h3]
  · have hs : setsConversation e = false := by simp [setsConversation, h1]
    by_cases h2 : e.etype = "assistant"
    · simp [claudeStep, h1, h2, hs]
    · by_cases h3 : e.etype = "result"
      · simp [claudeStep, h1, h2, h3, hs]
        split <;> rfl
      · simp [claudeStep, h1, h2, h3, hs]

lemma watch_foldl_response : ∀ (events : List ClaudeEvent) (st : RuntimeResult),
    (events.foldl claudeStep st).response =
      (match lastSuccessSplit events with
       | some (r, tail) => r ++ concatAssistantText tail
       | none => st.response ++ concatAssistantText events) := by
  intro events
  induction events with
  | nil => intro st; simp [lastSuccessSplit, concatAssistantText]
  | cons e rest ih =>
    intro st
    rw [List.foldl_cons, ih]
    cases h : lastSuccessSplit rest with
    | some p =>
      have hc : lastSuccessSplit (e :: rest) = some p := by simp [lastSuccessSplit, h]
      rw [hc]
    | none =>
      by_cases ho : overwritesResponse e = true
      · have hc : lastSuccessSplit (e :: rest) = some (e.result, rest) := by
          simp [lastSuccessSplit, h, ho]
        rw [hc]
        simp [claudeStep_response, ho]
      · have ho' : overwritesResponse e = false := by
          cases hb : overwritesResponse e
          · rfl
          · exact absurd hb ho
        have hc : lastSuccessSplit (e :: rest) = none := by
          simp [lastSuccessSplit, h, ho']
        rw [hc]
        simp only [claudeStep_response, ho', Bool.false_eq_true, if_false, concatAssistantText]
        rw [String.append_assoc]

lemma watch_foldl_conversation : ∀ (events : List ClaudeEvent) (st : RuntimeResult),
    (events.foldl claudeStep st).conversationID =
      events.foldl (fun acc e => if setsConversation e then e.sessionID else acc)
        st.conversationID := by
  intro events
  induction events with
  | nil => intro st; rfl
  | cons e rest ih =>
    intro st
    rw [List.foldl_cons, List.foldl_cons, ih, claudeStep_conversation]

lemma foldl_filterMap {σ α β : Type} (decode : α → Option β) (g : σ → β → σ)
    (process : σ → α → σ)
    (hp : ∀ s l, process s l = (match decode l with | none => s | some e => g s e)) :
    ∀ (ls : List α) (s : σ), ls.foldl process s = (ls.filterMap decode).foldl g s := by
  intro ls
  induction ls with
  | nil => intro s; rfl
  | cons l t ih =>
    intro s
    rw [List.foldl_cons, hp]
    cases h : decode l with
    | none => simp [List.filterMap_cons, h, ih]
    | some e => simp [List.filterMap_cons, h, ih]

/-- Stdout line with one assistant text block "hi". -/
def claudeLineAssistantHi : String :=
  "\x7b\"type\":\"assistant\",\"message\":\x7b\"content\":[\x7b\"type\":\"text\",\"text\":\"hi\"\x7d]\x7d\x7d"

/-- Stdout line with a result/success event whose result is empty. -/
def claudeLineEmptySuccess : String :=
  "\x7b\"type\":\"result\",\"subtype\":\"success\",\"result\":\"\"\x7d"

/-- Counterexample to C3 as stated: after an assistant event appending
"hi", a result/success event with an empty `result` does not overwrite
the response, so the final response is "hi" while the claim predicts
the last successful result, the empty string. -/
theorem C3_counterexample :
    (watchClaudeEvents [claudeLineAssistantHi, claudeLineEmptySuccess]).response = "hi" ∧
    claimedClaudeResponse
      ([claudeLineAssistantHi, claudeLineEmptySuccess].filterMap decodeClaudeLine) = "" ∧
    (watchClaudeEvents [claudeLineAssistantHi, claudeLineEmptySuccess]).response ≠
      claimedClaudeResponse
        ([claudeLineAssistantHi, claudeLineEmptySuccess].filterMap decodeClaudeLine) := by
  refine ⟨rfl, rfl, by decide⟩

/-- C3 (amended): a system/init event with a non-empty session id sets
the conversation id (the last one wins); each assistant event appends
its text blocks; a result/success event with a non-empty `result`
overwrites the response. Hence the final response is the last
non-empty successful result followed by the assistant text emitted
after it (or the concatenation of all assistant text when no such
result occurs), and the conversation id is the session id of the last
init event carrying one. -/
theorem C3_amended_claude_stream (lines : List String) :
    watchClaudeEvents lines =
      RuntimeResult.mk (amendedClaudeResponse (lines.filterMap decodeClaudeLine))
        (lastInitSession (lines.filterMap decodeClaudeLine)) := by
  have h1 : watchClaudeEvents lines =
      (lines.filterMap decodeClaudeLine).foldl claudeStep (RuntimeResult.mk "" "") :=
    foldl_filterMap decodeClaudeLine claudeStep claudeProcessLine
      (fun s l => by cases h : decodeClaudeLine l <;> simp [claudeProcessLine, h]) lines _
  rw [h1]
  have e1 : ((lines.filterMap decodeClaudeLine).foldl claudeStep
      (RuntimeResult.mk "" "")).response =
      amendedClaudeResponse (lines.filterMap decodeClaudeLine) := by
    rw [watch_foldl_response]
    cases h : lastSuccessSplit (lines.filterMap decodeClaudeLine) with
    | some p => cases p with
      | mk r tail => simp [amendedClaudeResponse, h]
    | none => simp [amendedClaudeResponse, h]
  have e2 : ((lines.filterMap decodeClaudeLine).foldl claudeStep
      (RuntimeResult.mk "" "")).conversationID =
      lastInitSession (lines.filterMap decodeClaudeLine) := by
    rw [watch_foldl_conversation]
    rfl
  conv_lhs => rw [show ((lines.filterMap decodeClaudeLine).foldl claudeStep
    (RuntimeResult.mk "" "")) = RuntimeResult.mk
      ((lines.filterMap decodeClaudeLine).foldl claudeStep (RuntimeResult.mk "" "")).response
      ((lines.filterMap decodeClaudeLine).foldl claudeStep
        (RuntimeResult.mk "" "")).conversationID from rfl]
  rw [e1, e2]

/-! Claude MCP-server configuration (internal/pkg/runtime/claude/runtime.go
`AddMCPServer` / `RemoveMCPServer` and config.go `readClaudeConfig` /
`writeClaudeConfig`). The file contents are modelled by their parsed
JSON tree (`readClaudeConfig` rejects files that are not valid JSON);
`sjson.SetBytes` / `sjson.DeleteBytes` splice the document without
touching the bytes of unrelated members, which at tree level is:
members other than the addressed one are carried over unchanged.
Objects are association lists; the first binding of a key is the one
gjson/sjson address. Paths are plain dot-separated keys (the only form
this code constructs); gjson path metacharacters are out of scope. -/

/-- First binding of a key in a JSON object's member list. -/
def lookupFirst : List (String × Json) → String → Option Json
  | [], _ => none
  | (k, v) :: tl, key => if k = key then some v else lookupFirst tl key

/-- Replace the value of the first binding of a key (no-op when the
key is absent). -/
def replaceFirst : List (String × Json) → String → Json → List (String × Json)
  | [], _, _ => []
  | (k, v) :: tl, key, nv =>
    if k = key then (k, nv) :: tl else (k, v) :: replaceFirst tl key nv

/-- Remove the first binding of a key. -/
def removeFirst : List (String × Json) → String → List (String × Json)
  | [], _ => []
  | (k, v) :: tl, key => if k = key then tl else (k, v) :: removeFirst tl key

/-- Number of bindings of a key. -/
def countKey (ms : List (String × Json)) (key : String) : Nat :=
  (ms.filter (fun p => p.1 == key)).length

/-- Member list of a JSON value (empty for non-objects). -/
def jsonMembers : Json → List (String × Json)
  | Json.obj ms => ms
  | _ => []

/-- Split a character list at dots (the plain-key fragment of the
gjson/sjson path syntax). -/
def splitPath : List Char → List Char → List String
  | [], acc => [String.mk acc.reverse]
  | c :: rest, acc =>
    if c = '.' then String.mk acc.reverse :: splitPath rest []
    else splitPath rest (c :: acc)

/-- Dot-separated segments of a gjson/sjson path. -/
def pathSegments (s : String) : List String :=
  splitPath s.data []

/-- Model of `sjson.SetBytes` on the parsed tree: walk the path,
replacing the first binding of each segment (creating the segment at
the end of the member list, or replacing a non-object by a fresh
object, when necessary), and store the value at the end of the path. -/
def sjsonSet : List String → Json → Json → Json
  | [], v, _ => v
  | k :: rest, v, j =>
    match lookupFirst (jsonMembers j) k with
    | some child => Json.obj (replaceFirst (jsonMembers j) k (sjsonSet rest v child))
    | none => Json.obj (jsonMembers j ++ [(k, sjsonSet rest v (Json.obj []))])

/-- Model of `sjson.DeleteBytes` on the parsed tree: remove the first
binding at the end of the path; a missing path or a non-object on the
way leaves the document unchanged. -/
def sjsonDelete : List String → Json → Json
  | [], j => j
  | k :: rest, j =>
    match j with
    | Json.obj ms =>
      match rest with
      | [] => Json.obj (removeFirst ms k)
      | _ :: _ =>
        match lookupFirst ms k with
        | some child => Json.obj (replaceFirst ms k (sjsonDelete rest child))
        | none => Json.obj ms
    | other => other

/-- Model of `gjson.GetBytes(...).Exists()` for a plain-key path. -/
def gjsonExists : List String → Json → Bool
  | [], _ => true
  | k :: rest, j =>
    match lookupFirst (jsonMembers j) k with
    | some child => gjsonExists rest child
    | none => false

/-- Value at a top-level key. -/
def topLookup (j : Json) (k : String) : Option Json :=
  lookupFirst (jsonMembers j) k

/-- Value at a top-level key, defaulting to an empty object. -/
def subAt (j : Json) (k : String) : Json :=
  match topLookup j k with
  | some c => c
  | none => Json.obj []

/-- Whether the `mcpServers` object (first binding) has a binding for
the given server name. -/
def mcpContains (j : Json) (name : String) : Bool :=
  (lookupFirst (jsonMembers (subAt j "mcpServers")) name).isSome

/-- Contents of `~/.claude.json` as `readClaudeConfig` distinguishes
them: empty, syntactically invalid, or a parsed JSON document. -/
inductive ClaudeFileData where
  | empty
  | invalid
  | json (j : Json)

/-- Filesystem state relevant to the claude MCP config: the config file
(if present) and whether the temp file `<path>~` exists. -/
structure ClaudeConfigState where
  configFile : Option ClaudeFileData
  tmpFileExists : Bool

/-- Mirror of `readClaudeConfig` (config.go lines 16-40): a missing or
empty file reads as an empty object, invalid JSON is an error,
otherwise the (parsed) contents. -/
def readClaudeConfig (fs : ClaudeConfigState) : Except String Json :=
  match fs.configFile with
  | none => Except.ok (Json.obj [])
  | some ClaudeFileData.empty => Except.ok (Json.obj [])
  | some ClaudeFileData.invalid => Except.error "unmarshal config: invalid JSON syntax"
  | some (ClaudeFileData.json j) => Except.ok j

/-- Mirror of `writeClaudeConfig` (config.go lines 44-70): fail if the
temp file already exists, otherwise write the temp file and rename it
over the config file, leaving no temp file behind. -/
def writeClaudeConfig (fs : ClaudeConfigState) (j : Json) : Except String ClaudeConfigState :=
  if fs.tmpFileExists then Except.error "temp file already exists"
  else Except.ok (ClaudeConfigState.mk (some (ClaudeFileData.json j)) false)

/-- An stdio MCP server registration (`agent.RuntimeSTDIOMCPServer`). -/
structure StdioMCPServer where
  command : String
  arguments : List String

/-- Mirror of `Runtime.AddMCPServer` (runtime.go lines 198-242): read
the config, set `mcpServers.<name>.type` to "stdio", set
`mcpServers.<name>.command`, set `mcpServers.<name>.args` when the
argument list is non-empty, and write the result back. -/
def addMCPServer (fs : ClaudeConfigState) (name : String) (server : StdioMCPServer) :
    Except String ClaudeConfigState :=
  match readClaudeConfig fs with
  | Except.error e => Except.error e
  | Except.ok data =>
    let serverPath := "mcpServers." ++ name
    let data1 := sjsonSet (pathSegments (serverPath ++ ".type")) (Json.str "stdio") data
    let data2 := sjsonSet (pathSegments (serverPath ++ ".command"))
      (Json.str server.command) data1
    let data3 :=
      if server.arguments.length > 0 then
        sjsonSet (pathSegments (serverPath ++ ".args"))
          (Json.arr (server.arguments.map Json.str)) data2
      else data2
    writeClaudeConfig fs data3

/-- Mirror of `Runtime.RemoveMCPServer` (runtime.go lines 295-326):
read the config, fail when `mcpServers.<name>` does not exist, delete
it and write the result back. -/
def removeMCPServer (fs : ClaudeConfigState) (name : String) :
    Except String ClaudeConfigState :=
  match readClaudeConfig fs with
  | Except.error e => Except.error e
  | Except.ok data =>
    let serverPath := pathSegments ("mcpServers." ++ name)
    if gjsonExists serverPath data then
      writeClaudeConfig fs (sjsonDelete serverPath data)
    else Except.error "remove mcp server: mcp server not found"

lemma lookupFirst_replaceFirst_found (ms : List (String × Json)) (k : String) (v : Json)
    (h : (lookupFirst ms k).isSome) :
    lookupFirst (replaceFirst ms k v) k = some v := by
  induction ms with
  | nil => simp [lookupFirst] at h
  | cons p tl ih =>
    cases p with
    | mk k0 v0 =>
      by_cases hk : k0 = k
      · simp [replaceFirst, lookupFirst, hk]
      · simp only [replaceFirst, lookupFirst, hk, if_false, if_neg hk]
        exact ih (by simpa [lookupFirst, hk] using h)

lemma lookupFirst_replaceFirst_ne (ms : List (String × Json)) (k : String) (v : Json)
    (k' : String) (h : k' ≠ k) :
    lookupFirst (replaceFirst ms k v) k' = lookupFirst ms k' := by
  have hkk' : k ≠ k' := fun hc => h hc.symm
  induction ms with
  | nil => rfl
  | cons p tl ih =>
    cases p with
    | mk k0 v0 =>
      by_cases hk : k0 = k
      · simp [replaceFirst, lookupFirst, hk, hkk']
      · by_cases hk2 : k0 = k'
        · simp [replaceFirst, lookupFirst, hk, hk2, h]
        · simp [replaceFirst, lookupFirst, hk, hk2, ih]

lemma lookupFirst_append_single_self (ms : List (String × Json)) (k : String) (v : Json)
    (h : lookupFirst ms k = none) :
    lookupFirst (ms ++ [(k, v)]) k = some v := by
  induction ms with
  | nil => simp [lookupFirst]
  | cons p tl ih =>
    cases p with
    | mk k0 v0 =>
      by_cases hk : k0 = k
      · simp [lookupFirst, hk] at h
      · simp only [List.cons_append, lookupFirst, hk, if_neg hk]
        exact ih (by simpa [lookupFirst, hk] using h)

lemma lookupFirst_append_single_ne (ms : List (String × Json)) (k : String) (v : Json)
    (k' : String) (h : k' ≠ k) :
    lookupFirst (ms ++ [(k, v)]) k' = lookupFirst ms k' := by
  have hkk' : k ≠ k' := fun hc => h hc.symm
  induction ms with
  | nil => simp [lookupFirst, hkk']
  | cons p tl ih =>
    cases p with
    | mk k0 v0 =>
      by_cases hk : k0 = k'
      · simp [lookupFirst, hk]
      · simp [lookupFirst, hk, ih]

lemma lookupFirst_removeFirst_ne (ms : List (String × Json)) (k k' : String) (h : k' ≠ k) :
    lookupFirst (removeFirst ms k) k' = lookupFirst ms k' := by
  have hkk' : k ≠ k' := fun hc => h hc.symm
  induction ms with
  | nil => rfl
  | cons p tl ih =>
    cases p with
    | mk k0 v0 =>
      by_cases hk : k0 = k
      · simp [removeFirst, lookupFirst, hk, hkk']
      · by_cases hk2 : k0 = k'
        · simp [removeFirst, lookupFirst, hk, hk2, h]
        · simp [removeFirst, lookupFirst, hk, hk2, ih]

lemma countKey_cons (k0 : String) (v0 : Json) (tl : List (String × Json)) (k : String) :
    countKey ((k0, v0) :: tl) k =
      (if k0 = k then countKey tl k + 1 else countKey tl k) := by
  by_cases hk : k0 = k <;> simp [countKey, List.filter_cons, hk]

lemma countKey_eq_zero_of_lookup_none (ms : List (String × Json)) (k : String)
    (h : lookupFirst ms k = none) : countKey ms k = 0 := by
  induction ms with
  | nil => rfl
  | cons p tl ih =>
    cases p with
    | mk k0 v0 =>
      by_cases hk : k0 = k
      · simp [lookupFirst, hk] at h
      · rw [countKey_cons, if_neg hk]
        exact ih (by simpa [lookupFirst, hk] using h)

lemma countKey_replaceFirst (ms : List (String × Json)) (k : String) (v : Json) :
    countKey (replaceFirst ms k v) k = countKey ms k := by
  induction ms with
  | nil => rfl
  | cons p tl ih =>
    cases p with
    | mk k0 v0 =>
      by_cases hk : k0 = k
      · simp [replaceFirst, hk, countKey_cons]
      · simp [replaceFirst, hk, countKey_cons, ih]

lemma countKey_append_single (ms : List (String × Json)) (k : String) (v : Json) :
    countKey (ms ++ [(k, v)]) k = countKey ms k + 1 := by
  induction ms with
  | nil => simp [countKey, List.filter_cons]
  | cons p tl ih =>
    cases p with
    | mk k0 v0 =>
      by_cases hk : k0 = k
      · simp only [List.cons_append, countKey_cons, if_pos hk, ih]
      · simp only [List.cons_append, countKey_cons, if_neg hk, ih]

lemma lookupFirst_removeFirst_self (ms : List (String × Json)) (k : String)
    (h : countKey ms k ≤ 1) :
    lookupFirst (removeFirst ms k) k = none := by
  induction ms with
  | nil => rfl
  | cons p tl ih =>
    cases p with
    | mk k0 v0 =>
      by_cases hk : k0 = k
      · rw [countKey_cons, if_pos hk] at h
        have htl : countKey tl k = 0 := by omega
        simp only [removeFirst, if_pos hk]
        cases hlk : lookupFirst tl k with
        | none => rfl
        | some c =>
          exfalso
          have : countKey tl k ≠ 0 := by
            clear h htl ih
            induction tl with
            | nil => simp [lookupFirst] at hlk
            | cons q tq ihq =>
              cases q with
              | mk kq vq =>
                by_cases hq : kq = k
                · rw [countKey_cons, if_pos hq]; omega
                · rw [countKey_cons, if_neg hq]
                  exact ihq (by simpa [lookupFirst, hq] using hlk)
          exact this htl
      · rw [countKey_cons, if_neg hk] at h
        simp only [removeFirst, if_neg hk, lookupFirst, hk, if_neg hk]
        exact ih h

lemma sjsonSet_topLookup_self (k : String) (rest : List String) (v j : Json) :
    topLookup (sjsonSet (k :: rest) v j) k = some (sjsonSet rest v (subAt j k)) := by
  cases h : lookupFirst (jsonMembers j) k with
  | some c =>
    have hstep : sjsonSet (k :: rest) v j =
        Json.obj (replaceFirst (jsonMembers j) k (sjsonSet rest v c)) := by
      simp only [sjsonSet, h]
    have hsub : subAt j k = c := by simp only [subAt, topLookup, h]
    rw [hstep, hsub]
    show lookupFirst (replaceFirst (jsonMembers j) k (sjsonSet rest v c)) k =
      some (sjsonSet rest v c)
    exact lookupFirst_replaceFirst_found (jsonMembers j) k (sjsonSet rest v c) (by simp [h])
  | none =>
    have hstep : sjsonSet (k :: rest) v j =
        Json.obj (jsonMembers j ++ [(k, sjsonSet rest v (Json.obj []))]) := by
      simp only [sjsonSet, h]
    have hsub : subAt j k = Json.obj [] := by simp only [subAt, topLookup, h]
    rw [hstep, hsub]
    show lookupFirst (jsonMembers j ++ [(k, sjsonSet rest v (Json.obj []))]) k =
      some (sjsonSet rest v (Json.obj []))
    exact lookupFirst_append_single_self (jsonMembers j) k (sjsonSet rest v (Json.obj [])) h

lemma sjsonSet_topLookup_ne (k : String) (rest : List String) (v j : Json)
    (k' : String) (h : k' ≠ k) :
    topLookup (sjsonSet (k :: rest) v j) k' = topLookup j k' := by
  cases hl : lookupFirst (jsonMembers j) k with
  | some c =>
    have hstep : sjsonSet (k :: rest) v j =
        Json.obj (replaceFirst (jsonMembers j) k (sjsonSet rest v c)) := by
      simp only [sjsonSet, hl]
    rw [hstep]
    simp only [topLookup, jsonMembers]
    exact lookupFirst_replaceFirst_ne _ _ _ _ h
  | none =>
    have hstep : sjsonSet (k :: rest) v j =
        Json.obj (jsonMembers j ++ [(k, sjsonSet rest v (Json.obj []))]) := by
      simp only [sjsonSet, hl]
    rw [hstep]
    simp only [topLookup, jsonMembers]
    exact lookupFirst_append_single_ne _ _ _ _ h

lemma sjsonDelete_topLookup_ne (k : String) (rest : List String) (j : Json)
    (k' : String) (h : k' ≠ k) :
    topLookup (sjsonDelete (k :: rest) j) k' = topLookup j k' := by
  cases j with
  | obj ms =>
    cases rest with
    | nil =>
      have hstep : sjsonDelete [k] (Json.obj ms) = Json.obj (removeFirst ms k) := rfl
      rw [hstep]
      show lookupFirst (removeFirst ms k) k' = lookupFirst ms k'
      exact lookupFirst_removeFirst_ne _ _ _ h
    | cons r rs =>
      cases hl : lookupFirst ms k with
      | some c =>
        have hstep : sjsonDelete (k :: r :: rs) (Json.obj ms) =
            Json.obj (replaceFirst ms k (sjsonDelete (r :: rs) c)) := by
          simp only [sjsonDelete, jsonMembers, hl]
        rw [hstep]
        simp only [topLookup, jsonMembers]
        exact lookupFirst_replaceFirst_ne _ _ _ _ h
      | none =>
        have hstep : sjsonDelete (k :: r :: rs) (Json.obj ms) = Json.obj ms := by
          simp only [sjsonDelete, jsonMembers, hl]
        rw [hstep]
  | null => rfl
  | bool b => rfl
  | num r => rfl
  | str c => rfl
  | arr xs => rfl

lemma sjsonDelete_two_topLookup_self (a b : String) (ms : List (String × Json)) (c : Json)
    (h : lookupFirst ms a = some c) :
    topLookup (sjsonDelete [a, b] (Json.obj ms)) a = some (sjsonDelete [b] c) := by
  have hstep : sjsonDelete [a, b] (Json.obj ms) =
      Json.obj (replaceFirst ms a (sjsonDelete [b] c)) := by
    simp only [sjsonDelete, jsonMembers, h]
  rw [hstep]
  show lookupFirst (replaceFirst ms a (sjsonDelete [b] c)) a = some (sjsonDelete [b] c)
  exact lookupFirst_replaceFirst_found ms a (sjsonDelete [b] c) (by simp [h])

lemma sjsonSet_cons_obj (k : String) (rest : List String) (v j : Json) :
    ∃ ms, sjsonSet (k :: rest) v j = Json.obj ms := by
  cases hl : lookupFirst (jsonMembers j) k with
  | some c =>
    refine ⟨replaceFirst (jsonMembers j) k (sjsonSet rest v c), ?_⟩
    simp only [sjsonSet, hl]
  | none =>
    refine ⟨jsonMembers j ++ [(k, sjsonSet rest v (Json.obj []))], ?_⟩
    simp only [sjsonSet, hl]

lemma countKey_sjsonSet_le (k : String) (rest : List String) (v j : Json)
    (h : countKey (jsonMembers j) k ≤ 1) :
    countKey (jsonMembers (sjsonSet (k :: rest) v j)) k ≤ 1 := by
  cases hl : lookupFirst (jsonMembers j) k with
  | some c =>
    have hstep : sjsonSet (k :: rest) v j =
        Json.obj (replaceFirst (jsonMembers j) k (sjsonSet rest v c)) := by
      simp only [sjsonSet, hl]
    rw [hstep]
    show countKey (replaceFirst (jsonMembers j) k (sjsonSet rest v c)) k ≤ 1
    rw [countKey_replaceFirst]
    exact h
  | none =>
    have hstep : sjsonSet (k :: rest) v j =
        Json.obj (jsonMembers j ++ [(k, sjsonSet rest v (Json.obj []))]) := by
      simp only [sjsonSet, hl]
    rw [hstep]
    show countKey (jsonMembers j ++ [(k, sjsonSet rest v (Json.obj []))]) k ≤ 1
    rw [countKey_append_single, countKey_eq_zero_of_lookup_none _ _ hl]

lemma splitPath_no_dot : ∀ (cs : List Char), (∀ c ∈ cs, c ≠ '.') →
    ∀ (acc : List Char), splitPath cs acc = [String.mk (acc.reverse ++ cs)] := by
  intro cs
  induction cs with
  | nil => intro _ acc; simp [splitPath]
  | cons c rest ih =>
    intro h acc
    have hc : c ≠ '.' := h c (List.mem_cons_self c rest)
    simp only [splitPath, if_neg hc]
    rw [ih (fun x hx => h x (List.mem_cons_of_mem c hx)) (c :: acc)]
    simp

lemma splitPath_mid_dot : ∀ (cs : List Char), (∀ c ∈ cs, c ≠ '.') →
    ∀ (ds acc : List Char), splitPath (cs ++ '.' :: ds) acc =
      String.mk (acc.reverse ++ cs) :: splitPath ds [] := by
  intro cs
  induction cs with
  | nil => intro _ ds acc; simp [splitPath]
  | cons c rest ih =>
    intro h ds acc
    have hc : c ≠ '.' := h c (List.mem_cons_self c rest)
    have hstep : splitPath ((c :: rest) ++ '.' :: ds) acc =
        splitPath (rest ++ '.' :: ds) (c :: acc) := by
      rw [List.cons_append]
      simp [splitPath, hc]
    rw [hstep, ih (fun x hx => h x (List.mem_cons_of_mem c hx)) ds (c :: acc)]
    simp

lemma pathSegments_mcp (name : String) (hname : ∀ c ∈ name.data, c ≠ '.') :
    pathSegments ("mcpServers." ++ name) = ["mcpServers", name] := by
  unfold pathSegments
  have hdata : ("mcpServers." ++ name).data = "mcpServers".data ++ '.' :: name.data := rfl
  rw [hdata, splitPath_mid_dot "mcpServers".data (by decide) name.data [],
    splitPath_no_dot name.data hname []]
  simp only [List.reverse_nil, List.nil_append]

lemma pathSegments_mcp_suffix (name suffix : String)
    (hname : ∀ c ∈ name.data, c ≠ '.') (hsuffix : ∀ c ∈ suffix.data, c ≠ '.') :
    pathSegments ("mcpServers." ++ name ++ ("." ++ suffix)) = ["mcpServers", name, suffix] := by
  unfold pathSegments
  have hdata : ("mcpServers." ++ name ++ ("." ++ suffix)).data =
      "mcpServers".data ++ '.' :: (name.data ++ '.' :: suffix.data) := by
    show ("mcpServers.".data ++ name.data) ++ (".".data ++ suffix.data) = _
    rw [List.append_assoc]
    exact rfl
  rw [hdata, splitPath_mid_dot "mcpServers".data (by decide) _ [],
    splitPath_mid_dot name.data hname suffix.data [],
    splitPath_no_dot suffix.data hsuffix []]
  simp only [List.reverse_nil, List.nil_append]

lemma mcp_remove_core (d0 dPrev : Json) (name fLast : String) (vLast : Json)
    (hframe : ∀ k, k ≠ "mcpServers" → topLookup dPrev k = topLookup d0 k)
    (hcnt : countKey (jsonMembers (subAt dPrev "mcpServers")) name ≤ 1) :
    gjsonExists ["mcpServers", name] (sjsonSet ["mcpServers", name, fLast] vLast dPrev) = true ∧
    (∀ k, k ≠ "mcpServers" →
      topLookup (sjsonDelete ["mcpServers", name]
        (sjsonSet ["mcpServers", name, fLast] vLast dPrev)) k = topLookup d0 k) ∧
    mcpContains (sjsonDelete ["mcpServers", name]
      (sjsonSet ["mcpServers", name, fLast] vLast dPrev)) name = false := by
  have hsub : topLookup (sjsonSet ["mcpServers", name, fLast] vLast dPrev) "mcpServers" =
      some (sjsonSet [name, fLast] vLast (subAt dPrev "mcpServers")) :=
    sjsonSet_topLookup_self "mcpServers" [name, fLast] vLast dPrev
  have hsubname : topLookup (sjsonSet [name, fLast] vLast (subAt dPrev "mcpServers")) name =
      some (sjsonSet [fLast] vLast (subAt (subAt dPrev "mcpServers") name)) :=
    sjsonSet_topLookup_self name [fLast] vLast _
  have hsub' : lookupFirst
      (jsonMembers (sjsonSet ["mcpServers", name, fLast] vLast dPrev)) "mcpServers" =
      some (sjsonSet [name, fLast] vLast (subAt dPrev "mcpServers")) := hsub
  have hsubname' : lookupFirst
      (jsonMembers (sjsonSet [name, fLast] vLast (subAt dPrev "mcpServers"))) name =
      some (sjsonSet [fLast] vLast (subAt (subAt dPrev "mcpServers") name)) := hsubname
  have hex : gjsonExists ["mcpServers", name]
      (sjsonSet ["mcpServers", name, fLast] vLast dPrev) = true := by
    simp only [gjsonExists, hsub', hsubname']
  obtain ⟨msL, hmsL⟩ := sjsonSet_cons_obj "mcpServers" [name, fLast] vLast dPrev
  have hlookL : lookupFirst msL "mcpServers" =
      some (sjsonSet [name, fLast] vLast (subAt dPrev "mcpServers")) := by
    have h := hsub
    rw [hmsL] at h
    exact h
  have hd2top : topLookup (sjsonDelete ["mcpServers", name]
      (sjsonSet ["mcpServers", name, fLast] vLast dPrev)) "mcpServers" =
      some (sjsonDelete [name] (sjsonSet [name, fLast] vLast (subAt dPrev "mcpServers"))) := by
    rw [hmsL]
    exact sjsonDelete_two_topLookup_self "mcpServers" name msL _ hlookL
  have hframe2 : ∀ k, k ≠ "mcpServers" →
      topLookup (sjsonDelete ["mcpServers", name]
        (sjsonSet ["mcpServers", name, fLast] vLast dPrev)) k = topLookup d0 k := by
    intro k hk
    rw [sjsonDelete_topLookup_ne "mcpServers" [name] _ k hk,
      sjsonSet_topLookup_ne "mcpServers" [name, fLast] vLast dPrev k hk]
    exact hframe k hk
  obtain ⟨msS, hmsS⟩ := sjsonSet_cons_obj name [fLast] vLast (subAt dPrev "mcpServers")
  have hcntS : countKey msS name ≤ 1 := by
    have h1 : countKey (jsonMembers (sjsonSet (name :: [fLast]) vLast
        (subAt dPrev "mcpServers"))) name ≤ 1 :=
      countKey_sjsonSet_le name [fLast] vLast _ hcnt
    rw [hmsS] at h1
    exact h1
  have hdelsub : sjsonDelete [name] (sjsonSet [name, fLast] vLast (subAt dPrev "mcpServers")) =
      Json.obj (removeFirst msS name) := by
    rw [hmsS]
    rfl
  have hnc : mcpContains (sjsonDelete ["mcpServers", name]
      (sjsonSet ["mcpServers", name, fLast] vLast dPrev)) name = false := by
    unfold mcpContains subAt
    rw [hd2top]
    simp only [hdelsub]
    show (lookupFirst (removeFirst msS name) name).isSome = false
    rw [lookupFirst_removeFirst_self msS name hcntS]
    rfl
  exact ⟨hex, hframe2, hnc⟩

/-- C5: adding an MCP server named X to the claude configuration and
then removing it leaves every top-level key other than `mcpServers`
bound to its original value (at tree level, which is byte-identity for
the splicing writer), removes X from `mcpServers`, and both writes go
through the temp-file-plus-rename discipline (failing when the temp
file pre-exists, leaving no temp file behind). The hypotheses: the
config file reads as a JSON object is not required (any document
works), the temp file is absent, the name is a plain key (no dots),
and the original `mcpServers` object does not bind X twice. -/
theorem C5_foreign_field_preservation (fs : ClaudeConfigState) (d0 : Json) (name : String)
    (server : StdioMCPServer)
    (hread : readClaudeConfig fs = Except.ok d0)
    (htmp : fs.tmpFileExists = false)
    (hname : ∀ c ∈ name.data, c ≠ '.')
    (hcount : countKey (jsonMembers (subAt d0 "mcpServers")) name ≤ 1) :
    ∃ fs1 fs2 d2,
      addMCPServer fs name server = Except.ok fs1 ∧
      removeMCPServer fs1 name = Except.ok fs2 ∧
      fs2.configFile = some (ClaudeFileData.json d2) ∧
      fs2.tmpFileExists = false ∧
      (∀ k, k ≠ "mcpServers" → topLookup d2 k = topLookup d0 k) ∧
      mcpContains d2 name = false := by
  have hpath0 : pathSegments ("mcpServers." ++ name) = ["mcpServers", name] :=
    pathSegments_mcp name hname
  have hpt : pathSegments ("mcpServers." ++ name ++ ".type") = ["mcpServers", name, "type"] :=
    pathSegments_mcp_suffix name "type" hname (by decide)
  have hpc : pathSegments ("mcpServers." ++ name ++ ".command") =
      ["mcpServers", name, "command"] :=
    pathSegments_mcp_suffix name "command" hname (by decide)
  have hpa : pathSegments ("mcpServers." ++ name ++ ".args") = ["mcpServers", name, "args"] :=
    pathSegments_mcp_suffix name "args" hname (by decide)
  have hf1 : ∀ k, k ≠ "mcpServers" →
      topLookup (sjsonSet ["mcpServers", name, "type"] (Json.str "stdio") d0) k =
        topLookup d0 k :=
    fun k hk => sjsonSet_topLookup_ne "mcpServers" [name, "type"] (Json.str "stdio") d0 k hk
  have hsub1 : subAt (sjsonSet ["mcpServers", name, "type"] (Json.str "stdio") d0)
      "mcpServers" = sjsonSet [name, "type"] (Json.str "stdio") (subAt d0 "mcpServers") := by
    unfold subAt
    rw [sjsonSet_topLookup_self]
    rfl
  have hc1 : countKey (jsonMembers (subAt
      (sjsonSet ["mcpServers", name, "type"] (Json.str "stdio") d0) "mcpServers")) name ≤ 1 := by
    rw [hsub1]
    exact countKey_sjsonSet_le name ["type"] (Json.str "stdio") _ hcount
  have hf2 : ∀ k, k ≠ "mcpServers" →
      topLookup (sjsonSet ["mcpServers", name, "command"] (Json.str server.command)
        (sjsonSet ["mcpServers", name, "type"] (Json.str "stdio") d0)) k =
        topLookup d0 k :=
    fun k hk => (sjsonSet_topLookup_ne "mcpServers" [name, "command"]
      (Json.str server.command) _ k hk).trans (hf1 k hk)
  have hsub2 : subAt (sjsonSet ["mcpServers", name, "command"] (Json.str server.command)
      (sjsonSet ["mcpServers", name, "type"] (Json.str "stdio") d0)) "mcpServers" =
      sjsonSet [name, "command"] (Json.str server.command)
        (subAt (sjsonSet ["mcpServers", name, "type"] (Json.str "stdio") d0) "mcpServers") := by
    unfold subAt
    rw [sjsonSet_topLookup_self]
    rfl
  have hc2 : countKey (jsonMembers (subAt
      (sjsonSet ["mcpServers", name, "command"] (Json.str server.command)
        (sjsonSet ["mcpServers", name, "type"] (Json.str "stdio") d0)) "mcpServers")) name
      ≤ 1 := by
    rw [hsub2, hsub1]
    exact countKey_sjsonSet_le name ["command"] (Json.str server.command) _
      (countKey_sjsonSet_le name ["type"] (Json.str "stdio") _ hcount)
  by_cases hargs : server.arguments.length > 0
  · obtain ⟨hex, hframe2, hnc⟩ := mcp_remove_core d0
      (sjsonSet ["mcpServers", name, "command"] (Json.str server.command)
        (sjsonSet ["mcpServers", name, "type"] (Json.str "stdio") d0))
      name "args" (Json.arr (server.arguments.map Json.str)) hf2 hc2
    have hadd : addMCPServer fs name server = writeClaudeConfig fs
        (sjsonSet ["mcpServers", name, "args"] (Json.arr (server.arguments.map Json.str))
          (sjsonSet ["mcpServers", name, "command"] (Json.str server.command)
            (sjsonSet ["mcpServers", name, "type"] (Json.str "stdio") d0))) := by
      simp only [addMCPServer, hread, hpt, hpc, hpa, if_pos hargs]
    have hadd2 : addMCPServer fs name server = Except.ok (ClaudeConfigState.mk
        (some (ClaudeFileData.json
          (sjsonSet ["mcpServers", name, "args"] (Json.arr (server.arguments.map Json.str))
            (sjsonSet ["mcpServers", name, "command"] (Json.str server.command)
              (sjsonSet ["mcpServers", name, "type"] (Json.str "stdio") d0))))) false) := by
      rw [hadd]
      simp [writeClaudeConfig, htmp]
    have hrem : removeMCPServer (ClaudeConfigState.mk
        (some (ClaudeFileData.json
          (sjsonSet ["mcpServers", name, "args"] (Json.arr (server.arguments.map Json.str))
            (sjsonSet ["mcpServers", name, "command"] (Json.str server.command)
              (sjsonSet ["mcpServers", name, "type"] (Json.str "stdio") d0))))) false) name =
        Except.ok (ClaudeConfigState.mk (some (ClaudeFileData.json
          (sjsonDelete ["mcpServers", name]
            (sjsonSet ["mcpServers", name, "args"] (Json.arr (server.arguments.map Json.str))
              (sjsonSet ["mcpServers", name, "command"] (Json.str server.command)
                (sjsonSet ["mcpServers", name, "type"] (Json.str "stdio") d0)))))) false) := by
      simp only [removeMCPServer, readClaudeConfig, hpath0, hex, if_true, writeClaudeConfig,
        Bool.false_eq_true, if_false]
    exact ⟨_, _, _, hadd2, hrem, rfl, rfl, hframe2, hnc⟩
  · obtain ⟨hex, hframe2, hnc⟩ := mcp_remove_core d0
      (sjsonSet ["mcpServers", name, "type"] (Json.str "stdio") d0)
      name "command" (Json.str server.command) hf1 hc1
    have hadd : addMCPServer fs name server = writeClaudeConfig fs
        (sjsonSet ["mcpServers", name, "command"] (Json.str server.command)
          (sjsonSet ["mcpServers", name, "type"] (Json.str "stdio") d0)) := by
      simp only [addMCPServer, hread, hpt, hpc, hpa, if_neg hargs]
    have hadd2 : addMCPServer fs name server = Except.ok (ClaudeConfigState.mk
        (some (ClaudeFileData.json
          (sjsonSet ["mcpServers", name, "command"] (Json.str server.command)
            (sjsonSet ["mcpServers", name, "type"] (Json.str "stdio") d0)))) false) := by
      rw [hadd]
      simp [writeClaudeConfig, htmp]
    have hrem : removeMCPServer (ClaudeConfigState.mk
        (some (ClaudeFileData.json
          (sjsonSet ["mcpServers", name, "command"] (Json.str server.command)
            (sjsonSet ["mcpServers", name, "type"] (Json.str "stdio") d0)))) false) name =
        Except.ok (ClaudeConfigState.mk (some (ClaudeFileData.json
          (sjsonDelete ["mcpServers", name]
            (sjsonSet ["mcpServers", name, "command"] (Json.str server.command)
              (sjsonSet ["mcpServers", name, "type"] (Json.str "stdio") d0))))) false) := by
      simp only [removeMCPServer, readClaudeConfig, hpath0, hex, if_true, writeClaudeConfig,
        Bool.false_eq_true, if_false]
    exact ⟨_, _, _, hadd2, hrem, rfl, rfl, hframe2, hnc⟩

/-- Initial config used by the C5 witness: `theme` and `font_size`
alongside an empty `mcpServers`. -/
def exampleClaudeConfig : Json :=
  Json.obj [("theme", Json.str "dark"), ("mcpServers", Json.obj []),
    ("font_size", Json.num "14")]

/-- Filesystem state used by the C5 witness. -/
def exampleClaudeFS : ClaudeConfigState :=
  ClaudeConfigState.mk (some (ClaudeFileData.json exampleClaudeConfig)) false

/-- Witness for C5: add and remove the server "briefkit" on a config
with foreign fields `theme` and `font_size`. -/
theorem C5_foreign_field_preservation_witness :
    ∃ fs1 fs2 d2,
      addMCPServer exampleClaudeFS "briefkit"
        (StdioMCPServer.mk "/usr/local/bin/briefkit-mcp" ["mcp"]) = Except.ok fs1 ∧
      removeMCPServer fs1 "briefkit" = Except.ok fs2 ∧
      fs2.configFile = some (ClaudeFileData.json d2) ∧
      fs2.tmpFileExists = false ∧
      (∀ k, k ≠ "mcpServers" → topLookup d2 k = topLookup exampleClaudeConfig k) ∧
      mcpContains d2 "briefkit" = false :=
  C5_foreign_field_preservation exampleClaudeFS exampleClaudeConfig "briefkit"
    (StdioMCPServer.mk "/usr/local/bin/briefkit-mcp" ["mcp"]) rfl rfl (by decide) (by decide)

/-! Argument builders of the three adapters. Go maps are modelled as
association lists with at most one binding per key (map writes are
upserts); Go map iteration order is unspecified, the list order is a
deterministic stand-in, and the rendering theorems below only use
membership and element shape. -/

/-- A Go `any` value as passed to the builders: the types the adapters
actually pass plus a stand-in for every other type. -/
inductive GoValue where
  | str (s : String)
  | bool (b : Bool)
  | int (n : Int)
  | conversationId (s : String)
  | other
deriving DecidableEq, Repr

/-- Go `map[string]bool` flag set to true: upsert of the name. -/
def setFlagList (flags : List String) (name : String) : List String :=
  if flags.contains name then flags else flags ++ [name]

/-- Go `map[string]string` write: replace the binding or append it. -/
def upsertValue (values : List (String × String)) (k v : String) :
    List (String × String) :=
  if (values.map Prod.fst).contains k then
    values.map (fun p => if p.1 = k then (k, v) else p)
  else values ++ [(k, v)]

/-- The codex `arguments` struct (internal/pkg/runtime/codex/instance.go):
`flags`, `values` and `configOverrides` maps. -/
structure CodexArguments where
  flags : List String
  values : List (String × String)
  configOverrides : List (String × String)
deriving DecidableEq, Repr

/-- Mirror of codex `defaultArguments`. -/
def codexDefaultArguments : CodexArguments :=
  CodexArguments.mk [] [] []

/-- Mirror of codex `arguments.valueToString`: strings must be
non-blank, booleans render as true/false, everything else is an
"unsupported type" error (the Go message formats the value with `%t`;
the message text is abbreviated here). -/
def codexValueToString : GoValue → Except String String
  | GoValue.str s => if goTrimSpace s = "" then Except.error "empty string" else Except.ok s
  | GoValue.bool b => Except.ok (if b then "true" else "false")
  | _ => Except.error "unsupported type"

/-- Mirror of codex `arguments.SetFlag`. -/
def codexSetFlag (a : CodexArguments) (name : String) : CodexArguments :=
  { a with flags := setFlagList a.flags name }

/-- Mirror of codex `arguments.SetValue`. -/
def codexSetValue (a : CodexArguments) (name : String) (value : GoValue) :
    Except String CodexArguments :=
  match codexValueToString value with
  | Except.error e => Except.error e
  | Except.ok v => Except.ok { a with values := upsertValue a.values name v }

/-- Mirror of codex `arguments.SetConfigOverride` (instance.go lines
306-315). Note: the source stores the pair into the `values` map
(`arguments.values[key] = valueStr`), not into `configOverrides`. -/
def codexSetConfigOverride (a : CodexArguments) (key : String) (value : GoValue) :
    Except String CodexArguments :=
  match codexValueToString value with
  | Except.error e => Except.error e
  | Except.ok v => Except.ok { a with values := upsertValue a.values key v }

/-- Mirror of codex `arguments.ToList` (instance.go lines 337-353):
flags as `--name`, values as `--name="value"` with literal double
quotes, config overrides as `--config="key=value"`. -/
def codexToList (a : CodexArguments) : List String :=
  (a.flags.map (fun f => "--" ++ f)) ++
  (a.values.map (fun p => "--" ++ p.1 ++ "=\"" ++ p.2 ++ "\"")) ++
  (a.configOverrides.map (fun p => "--config=\"" ++ p.1 ++ "=" ++ p.2 ++ "\""))

/-- Mirror of `agent.RuntimeFeatures`: tri-state feature flags. -/
structure RuntimeFeatures where
  enableWebSearch : Option Bool
  enableNetworkAccess : Option Bool
  enableSandbox : Option Bool
deriving DecidableEq, Repr

/-- Web-search part of codex `applyRuntimeFeaturesArguments`. -/
def codexApplyWebSearch (a : CodexArguments) (features : RuntimeFeatures) :
    Except String CodexArguments :=
  match features.enableWebSearch with
  | some b =>
    match codexSetConfigOverride a "features.web_search_request" (GoValue.bool b) with
    | Except.error e => Except.error ("enable web search: " ++ e)
    | Except.ok a2 => Except.ok a2
  | none => Except.ok a

/-- Mirror of codex `applyRuntimeFeaturesArguments` (instance.go lines
403-421): network access then web search, each through
`SetConfigOverride`. -/
def applyRuntimeFeaturesArguments (a : CodexArguments) (features : RuntimeFeatures) :
    Except String CodexArguments :=
  match features.enableNetworkAccess with
  | some b =>
    match codexSetConfigOverride a "sandbox_workspace_write.network_access" (GoValue.bool b) with
    | Except.error e => Except.error ("enable network access: " ++ e)
    | Except.ok a1 => codexApplyWebSearch a1 features
  | none => codexApplyWebSearch a features

/-- The gemini `arguments` struct: `flags` and `values` maps. -/
structure GeminiArguments where
  flags : List String
  values : List (String × String)
deriving DecidableEq, Repr

/-- Mirror of gemini `arguments.valueToString`: strings and
conversation ids must be non-blank, booleans render as true/false,
ints via `strconv.Itoa`, everything else is unsupported. -/
def geminiValueToString : GoValue → Except String String
  | GoValue.str s => if goTrimSpace s = "" then Except.error "empty string" else Except.ok s
  | GoValue.bool b => Except.ok (if b then "true" else "false")
  | GoValue.conversationId s =>
    if goTrimSpace s = "" then Except.error "empty string" else Except.ok s
  | GoValue.int n => Except.ok (toString n)
  | GoValue.other => Except.error "unsupported type"

/-- Mirror of gemini `arguments.SetValue`. -/
def geminiSetValue (a : GeminiArguments) (name : String) (value : GoValue) :
    Except String GeminiArguments :=
  match geminiValueToString value with
  | Except.error e => Except.error e
  | Except.ok v => Except.ok { a with values := upsertValue a.values name v }

/-- Mirror of gemini `arguments.ToList`: flags as `--name`, values as
`--name=value` with no quoting. -/
def geminiToList (a : GeminiArguments) : List String :=
  (a.flags.map (fun f => "--" ++ f)) ++
  (a.values.map (fun p => "--" ++ p.1 ++ "=" ++ p.2))

/-- Serialize a JSON value (models `encoding/json.Marshal` closely
enough for the `--settings` element: Go additionally sorts map keys
and HTML-escapes some characters; the association list stands in for
the ordered map). -/
def escapeJsonChar (c : Char) : List Char :=
  if c = '"' then ['\\', '"']
  else if c = '\\' then ['\\', '\\']
  else if c.toNat < 32 then
    ['\\', 'u', '0', '0',
      (if c.toNat / 16 < 10 then Char.ofNat (48 + c.toNat / 16)
       else Char.ofNat (87 + c.toNat / 16)),
      (if c.toNat % 16 < 10 then Char.ofNat (48 + c.toNat % 16)
       else Char.ofNat (87 + c.toNat % 16))]
  else [c]

mutual

def jsonSerialize : Json → String
  | Json.null => "null"
  | Json.bool true => "true"
  | Json.bool false => "false"
  | Json.num raw => raw
  | Json.str s =>
    "\"" ++ String.mk (s.data.foldr (fun c acc => escapeJsonChar c ++ acc) []) ++ "\""
  | Json.arr xs => "[" ++ serializeElems xs ++ "]"
  | Json.obj ms => "\x7b" ++ serializeMembers ms ++ "\x7d"

def serializeElems : List Json → String
  | [] => ""
  | [x] => jsonSerialize x
  | x :: y :: rest => jsonSerialize x ++ "," ++ serializeElems (y :: rest)

def serializeMembers : List (String × Json) → String
  | [] => ""
  | [(k, v)] => jsonSerialize (Json.str k) ++ ":" ++ jsonSerialize v
  | (k, v) :: m :: rest =>
    jsonSerialize (Json.str k) ++ ":" ++ jsonSerialize v ++ "," ++ serializeMembers (m :: rest)

end

/-- The `ClaudeArguments` struct
(internal/pkg/runtime/claude/arguments.go). -/
structure ClaudeArguments where
  print : Option Bool
  verbose : Option Bool
  outputFormat : Option String
  model : Option String
  resumeSessionID : Option String
  disallowedTools : List String
  settings : List (String × Json)

/-- Mirror of `NewClaudeArguments`: print, verbose and the
stream-json output format on by default. -/
def newClaudeArguments : ClaudeArguments :=
  ClaudeArguments.mk (some true) (some true) (some "stream-json") none none [] []

/-- Mirror of `ClaudeArguments.ToSlice` (arguments.go lines 32-67):
no validation of the values; empty strings render as `--model=` and
the like, as fixed by the adapter's own unit test. -/
def claudeToSlice (a : ClaudeArguments) : List String :=
  (if a.print = some true then ["--print"] else []) ++
  (if a.verbose = some true then ["--verbose"] else []) ++
  (match a.outputFormat with
   | some s => ["--output-format=" ++ s]
   | none => []) ++
  (match a.model with
   | some s => ["--model=" ++ s]
   | none => []) ++
  (match a.resumeSessionID with
   | some s => ["--resume=" ++ s]
   | none => []) ++
  (if a.disallowedTools.length > 0 then
    ["--disallowed-tools=" ++ String.intercalate "," a.disallowedTools]
   else []) ++
  (if a.settings.length > 0 then
    ["--settings=" ++ jsonSerialize (Json.obj a.settings)]
   else [])

/-- Whether a string starts with the given characters (kernel-friendly
form of `strings.HasPrefix`). -/
def strStartsWith (s p : String) : Bool :=
  p.data.isPrefixOf s.data

/-- C6 (code evaluation at the failing input): with
`enableWebSearch=false` the codex builder emits the plain value
element `--features.web_search_request="false"` and no `--config=...`
element at all, because `SetConfigOverride` stores into the `values`
map and the `configOverrides` rendering is dead code; likewise for
`enableNetworkAccess`. -/
theorem C6_code_evaluation :
    (applyRuntimeFeaturesArguments codexDefaultArguments
        (RuntimeFeatures.mk (some false) none none) =
      Except.ok (CodexArguments.mk [] [("features.web_search_request", "false")] []) ∧
      codexToList (CodexArguments.mk [] [("features.web_search_request", "false")] []) =
        ["--features.web_search_request=\"false\""] ∧
      (∀ s ∈ codexToList (CodexArguments.mk [] [("features.web_search_request", "false")] []),
        ¬ strStartsWith s "--config=") ∧
      "--config=\"features.web_search_request=false\"" ∉
        codexToList (CodexArguments.mk [] [("features.web_search_request", "false")] [])) ∧
    (applyRuntimeFeaturesArguments codexDefaultArguments
        (RuntimeFeatures.mk none (some true) none) =
      Except.ok (CodexArguments.mk []
        [("sandbox_workspace_write.network_access", "true")] []) ∧
      codexToList (CodexArguments.mk []
        [("sandbox_workspace_write.network_access", "true")] []) =
        ["--sandbox_workspace_write.network_access=\"true\""] ∧
      (∀ s ∈ codexToList (CodexArguments.mk []
          [("sandbox_workspace_write.network_access", "true")] []),
        ¬ strStartsWith s "--config=")) := by
  refine ⟨⟨rfl, rfl, ?_, ?_⟩, rfl, rfl, ?_⟩ <;> decide

/-- Counterexample to C7 as stated: the codex builder renders the pair
(model, m1) as `--model="m1"` with literal double quotes around the
value, not as `--model=m1`. -/
theorem C7_counterexample :
    codexSetValue codexDefaultArguments "model" (GoValue.str "m1") =
      Except.ok (CodexArguments.mk [] [("model", "m1")] []) ∧
    codexToList (CodexArguments.mk [] [("model", "m1")] []) = ["--model=\"m1\""] ∧
    "--model=m1" ∉ codexToList (CodexArguments.mk [] [("model", "m1")] []) := by
  refine ⟨rfl, rfl, ?_⟩
  decide

/-- Membership in a conditional singleton. -/
lemma mem_ite_singleton {c : Prop} [Decidable c] (s x : String) :
    s ∈ (if c then [x] else []) ↔ c ∧ s = x := by
  split
  · simp_all
  · simp_all

/-- Membership in an optional singleton. -/
lemma mem_option_singleton (o : Option String) (f : String → String) (s : String) :
    s ∈ (match o with | some v => [f v] | none => ([] : List String)) ↔
      ∃ v, o = some v ∧ s = f v := by
  cases o <;> simp

/-- C7 (amended): boolean flags render as `--name` for every adapter
(claude's are `--print` and `--verbose`); name/value pairs render as
`--name=value` with no quoting for the claude and gemini builders,
while the codex builder wraps the value in literal double quotes
(`--name="value"`, and `--config="key=value"` for its config-override
list). The claude clause characterizes every element `ToSlice` can
emit. -/
theorem C7_amended_rendering :
    (∀ (a : GeminiArguments) (s : String), s ∈ geminiToList a ↔
      ((∃ f ∈ a.flags, s = "--" ++ f) ∨
        (∃ p ∈ a.values, s = "--" ++ p.1 ++ "=" ++ p.2))) ∧
    (∀ (a : CodexArguments) (s : String), s ∈ codexToList a ↔
      ((∃ f ∈ a.flags, s = "--" ++ f) ∨
        (∃ p ∈ a.values, s = "--" ++ p.1 ++ "=\"" ++ p.2 ++ "\"") ∨
        (∃ p ∈ a.configOverrides, s = "--config=\"" ++ p.1 ++ "=" ++ p.2 ++ "\""))) ∧
    (∀ (a : ClaudeArguments) (s : String), s ∈ claudeToSlice a ↔
      ((a.print = some true ∧ s = "--print") ∨
        (a.verbose = some true ∧ s = "--verbose") ∨
        (∃ v, a.outputFormat = some v ∧ s = "--output-format=" ++ v) ∨
        (∃ v, a.model = some v ∧ s = "--model=" ++ v) ∨
        (∃ v, a.resumeSessionID = some v ∧ s = "--resume=" ++ v) ∨
        (a.disallowedTools.length > 0 ∧
          s = "--disallowed-tools=" ++ String.intercalate "," a.disallowedTools) ∨
        (a.settings.length > 0 ∧
          s = "--settings=" ++ jsonSerialize (Json.obj a.settings)))) := by
  refine ⟨?_, ?_, ?_⟩
  · intro a s
    simp only [geminiToList, List.mem_append, List.mem_map]
    constructor
    · rintro ((⟨f, hf, he⟩ | ⟨p, hp, he⟩))
      · exact Or.inl ⟨f, hf, he.symm⟩
      · exact Or.inr ⟨p, hp, he.symm⟩
    · rintro ((⟨f, hf, he⟩ | ⟨p, hp, he⟩))
      · exact Or.inl ⟨f, hf, he.symm⟩
      · exact Or.inr ⟨p, hp, he.symm⟩
  · intro a s
    simp only [codexToList, List.mem_append, List.mem_map]
    constructor
    · rintro ((⟨f, hf, he⟩ | ⟨p, hp, he⟩) | ⟨p, hp, he⟩)
      · exact Or.inl ⟨f, hf, he.symm⟩
      · exact Or.inr (Or.inl ⟨p, hp, he.symm⟩)
      · exact Or.inr (Or.inr ⟨p, hp, he.symm⟩)
    · rintro (⟨f, hf, he⟩ | ⟨p, hp, he⟩ | ⟨p, hp, he⟩)
      · exact Or.inl (Or.inl ⟨f, hf, he.symm⟩)
      · exact Or.inl (Or.inr ⟨p, hp, he.symm⟩)
      · exact Or.inr ⟨p, hp, he.symm⟩
  · intro a s
    simp only [claudeToSlice, List.mem_append, mem_ite_singleton, mem_option_singleton,
      or_assoc]

/-- Witness for C7 (amended) at a concrete builder: the default claude
builder with model "sonnet" renders `--print`, `--verbose` and
`--model=sonnet`. -/
theorem C7_amended_rendering_witness :
    "--print" ∈ claudeToSlice
      (ClaudeArguments.mk (some true) (some true) none (some "sonnet") none [] []) ∧
    ("--model=" ++ "sonnet") ∈ claudeToSlice
      (ClaudeArguments.mk (some true) (some true) none (some "sonnet") none [] []) :=
  ⟨(C7_amended_rendering.2.2
      (ClaudeArguments.mk (some true) (some true) none (some "sonnet") none [] [])
      "--print").mpr (Or.inl ⟨rfl, rfl⟩),
   (C7_amended_rendering.2.2
      (ClaudeArguments.mk (some true) (some true) none (some "sonnet") none [] [])
      ("--model=" ++ "sonnet")).mpr
     (Or.inr (Or.inr (Or.inr (Or.inl ⟨"sonnet", rfl, rfl⟩))))⟩

/-- Counterexample to C8 as stated: the claude builder performs no
empty-string validation; with empty output format, model and resume
values it renders `--output-format=`, `--model=` and `--resume=`,
exactly as its own unit test expects. -/
theorem C8_counterexample :
    claudeToSlice (ClaudeArguments.mk none none (some "") (some "") (some "") [] []) =
      ["--output-format=", "--model=", "--resume="] ∧
    "--model=" ∈ claudeToSlice
      (ClaudeArguments.mk none none (some "") (some "") (some "") [] []) := by
  refine ⟨rfl, ?_⟩
  decide

/-- C8 (amended): the codex and gemini builders reject empty and
whitespace-only strings ("empty string") and unsupported types
("unsupported type"), producing no argv element; the claude builder
does not validate values and renders an empty model as `--model=`. -/
theorem C8_amended_empty_value_handling :
    (∀ s : String, goTrimSpace s = "" →
      codexValueToString (GoValue.str s) = Except.error "empty string" ∧
      geminiValueToString (GoValue.str s) = Except.error "empty string" ∧
      geminiValueToString (GoValue.conversationId s) = Except.error "empty string" ∧
      (∀ (a : CodexArguments) (name : String),
        codexSetValue a name (GoValue.str s) = Except.error "empty string") ∧
      (∀ (a : GeminiArguments) (name : String),
        geminiSetValue a name (GoValue.str s) = Except.error "empty string")) ∧
    (∀ (n : Int) (s : String),
      codexValueToString (GoValue.int n) = Except.error "unsupported type" ∧
      codexValueToString (GoValue.conversationId s) = Except.error "unsupported type" ∧
      codexValueToString GoValue.other = Except.error "unsupported type" ∧
      geminiValueToString GoValue.other = Except.error "unsupported type") ∧
    (∀ a : ClaudeArguments, a.model = some "" → "--model=" ∈ claudeToSlice a) := by
  refine ⟨?_, ?_, ?_⟩
  · intro s hs
    refine ⟨?_, ?_, ?_, ?_, ?_⟩
    · simp [codexValueToString, hs]
    · simp [geminiValueToString, hs]
    · simp [geminiValueToString, hs]
    · intro a name
      simp [codexSetValue, codexValueToString, hs]
    · intro a name
      simp [geminiSetValue, geminiValueToString, hs]
  · intro n s
    exact ⟨rfl, rfl, rfl, rfl⟩
  · intro a hm
    simp [claudeToSlice, hm]

/-- Witness for C8 (amended) at concrete inputs: a whitespace-only
string is rejected by both validating builders and an empty model
renders as `--model=` in the claude builder. -/
theorem C8_amended_empty_value_handling_witness :
    codexValueToString (GoValue.str " ") = Except.error "empty string" ∧
    geminiValueToString (GoValue.str " ") = Except.error "empty string" ∧
    "--model=" ∈ claudeToSlice (ClaudeArguments.mk none none none (some "") none [] []) :=
  ⟨(C8_amended_empty_value_handling.1 " " (by decide)).1,
   (C8_amended_empty_value_handling.1 " " (by decide)).2.1,
   C8_amended_empty_value_handling.2.2 (ClaudeArguments.mk none none none (some "") none [] [])
     rfl⟩

/-! Execution-identifier validation. `ExecutionID.Validate`
(internal/pkg/utils/duration.go, agent package) rejects the empty
string and otherwise defers to `github.com/google/uuid`'s `Parse`.
`Parse` is modelled from the library source: it switches on the byte
length (character positions here; accepted strings are ASCII in both
readings) and accepts the canonical 36-byte form, a 45-byte form with
a case-insensitive "urn:uuid:" prefix, a 38-byte form checked only at
positions 1-36 (the wrapping braces themselves are never compared),
and a 32-byte undashed hexadecimal form. -/

/-- Dash checks of `uuid.Parse` at positions 8, 13, 18, 23. -/
def checkDashes (cs : List Char) : Bool :=
  (cs.getD 8 ' ' == '-') && (cs.getD 13 ' ' == '-') &&
    (cs.getD 18 ' ' == '-') && (cs.getD 23 ' ' == '-')

/-- The sixteen byte-pair offsets `uuid.Parse` feeds to `xtob`. -/
def uuidHexPairStarts : List Nat :=
  [0, 2, 4, 6, 9, 11, 14, 16, 19, 21, 24, 26, 28, 30, 32, 34]

/-- Hex checks of `uuid.Parse`: each pair position and its successor. -/
def uuidHexPairsOk (cs : List Char) : Bool :=
  uuidHexPairStarts.all (fun x =>
    isHexDigit (cs.getD x ' ') && isHexDigit (cs.getD (x + 1) ' '))

/-- The 36-position check of `uuid.Parse` (dashes then hex pairs). -/
def check36 (cs : List Char) : Bool :=
  checkDashes cs && uuidHexPairsOk cs

/-- ASCII model of `strings.EqualFold`. -/
def asciiEqualFoldList (a b : List Char) : Bool :=
  a.map Char.toLower == b.map Char.toLower

/-- Model of `uuid.Parse` success (google/uuid `Parse`, the length
switch and the position checks). -/
def goUuidParseOk (s : String) : Bool :=
  if s.data.length = 36 then check36 s.data
  else if s.data.length = 45 then
    asciiEqualFoldList (s.data.take 9) "urn:uuid:".data && check36 (s.data.drop 9)
  else if s.data.length = 38 then check36 (s.data.drop 1)
  else if s.data.length = 32 then
    (List.range 16).all (fun i =>
      isHexDigit (s.data.getD (2 * i) ' ') && isHexDigit (s.data.getD (2 * i + 1) ' '))
  else false

/-- Mirror of `ExecutionID.Validate`: the empty string and strings
`uuid.Parse` rejects yield `ErrExecutionIDInvalid`. -/
def executionIDValidate (s : String) : Except String Unit :=
  if s = "" then Except.error "execution id invalid"
  else if goUuidParseOk s then Except.ok ()
  else Except.error "execution id invalid"

/-- Position check of the canonical 8-4-4-4-12 form, written from the
claim: dashes at the four separator positions, hex digits at the other
32 of the first 36 positions. -/
def canonicalPositionsOk (cs : List Char) : Bool :=
  (List.range 36).all (fun i =>
    if i = 8 ∨ i = 13 ∨ i = 18 ∨ i = 23 then cs.getD i ' ' == '-'
    else isHexDigit (cs.getD i ' '))

/-- A UUID in the canonical 8-4-4-4-12 hexadecimal form (the shape the
claim asserts is the only accepted one). -/
def isCanonicalUUID (s : String) : Bool :=
  s.data.length == 36 && canonicalPositionsOk s.data

/-- Shapes accepted under the amended claim: canonical, urn-prefixed
canonical, 38-character with canonical positions 1-36, or 32 hex
digits. -/
def acceptedUuidShapes (s : String) : Bool :=
  isCanonicalUUID s ||
  ((s.data.length == 45) && asciiEqualFoldList (s.data.take 9) "urn:uuid:".data &&
    canonicalPositionsOk (s.data.drop 9)) ||
  ((s.data.length == 38) && canonicalPositionsOk (s.data.drop 1)) ||
  ((s.data.length == 32) && s.data.all isHexDigit)

lemma check36_eq_canonical (cs : List Char) :
    check36 cs = canonicalPositionsOk cs := by
  have hr : List.range 36 =
      [0, 1, 2, 3, 4, 5, 6, 7, 8, 9, 10, 11, 12, 13, 14, 15, 16, 17, 18, 19, 20, 21, 22,
        23, 24, 25, 26, 27, 28, 29, 30, 31, 32, 33, 34, 35] := rfl
  unfold check36 checkDashes uuidHexPairsOk uuidHexPairStarts canonicalPositionsOk
  rw [hr]
  simp only [List.all_cons, List.all_nil]
  norm_num
  ac_rfl

lemma all_eq_range_getD (l : List Char) (p : Char → Bool) :
    l.all p = (List.range l.length).all (fun i => p (l.getD i ' ')) := by
  rw [Bool.eq_iff_iff]
  simp only [List.all_eq_true, List.mem_range]
  constructor
  · intro h i hi
    have hg : l.getD i ' ' = l[i] := List.getD_eq_getElem l ' ' hi
    rw [hg]
    exact h _ (List.getElem_mem hi)
  · intro h c hc
    obtain ⟨j, hj, rfl⟩ := List.getElem_of_mem hc
    have hg : l.getD j ' ' = l[j] := List.getD_eq_getElem l ' ' hj
    rw [← hg]
    exact h j hj

lemma hex32_pairs_eq_all (cs : List Char) (h : cs.length = 32) :
    ((List.range 16).all (fun i =>
      isHexDigit (cs.getD (2 * i) ' ') && isHexDigit (cs.getD (2 * i + 1) ' '))) =
      cs.all isHexDigit := by
  rw [all_eq_range_getD cs isHexDigit, h]
  have hr16 : List.range 16 = [0, 1, 2, 3, 4, 5, 6, 7, 8, 9, 10, 11, 12, 13, 14, 15] := rfl
  have hr32 : List.range 32 =
      [0, 1, 2, 3, 4, 5, 6, 7, 8, 9, 10, 11, 12, 13, 14, 15, 16, 17, 18, 19, 20, 21, 22,
        23, 24, 25, 26, 27, 28, 29, 30, 31] := rfl
  rw [hr16, hr32]
  simp only [List.all_cons, List.all_nil]
  norm_num
  ac_rfl

lemma goUuidParseOk_eq_acceptedShapes (s : String) :
    goUuidParseOk s = acceptedUuidShapes s := by
  unfold goUuidParseOk acceptedUuidShapes isCanonicalUUID
  by_cases h36 : s.data.length = 36
  · rw [if_pos h36, check36_eq_canonical]
    simp [h36]
  · by_cases h45 : s.data.length = 45
    · rw [if_neg h36, if_pos h45, check36_eq_canonical]
      simp [h45, Bool.and_assoc]
    · by_cases h38 : s.data.length = 38
      · rw [if_neg h36, if_neg h45, if_pos h38, check36_eq_canonical]
        simp [h38]
      · by_cases h32 : s.data.length = 32
        · rw [if_neg h36, if_neg h45, if_neg h38, if_pos h32,
            hex32_pairs_eq_all s.data h32]
          simp [h32]
        · rw [if_neg h36, if_neg h45, if_neg h38, if_neg h32]
          have h36' : ¬ s.length = 36 := h36
          have h45' : ¬ s.length = 45 := h45
          have h38' : ¬ s.length = 38 := h38
          have h32' : ¬ s.length = 32 := h32
          simp [h36', h45', h38', h32']

/-- Counterexample to C9 as stated: 32 undashed hex digits pass
`ExecutionID.Validate` (google/uuid `Parse` accepts the form) but are
not a canonical 8-4-4-4-12 UUID. -/
theorem C9_counterexample :
    executionIDValidate "0123456789abcdef0123456789abcdef" = Except.ok () ∧
    isCanonicalUUID "0123456789abcdef0123456789abcdef" = false := by
  exact ⟨rfl, by decide⟩

/-- C9 (amended): `ExecutionID(s).Validate()` succeeds exactly when
google/uuid `Parse` accepts s: the canonical 36-character 8-4-4-4-12
hexadecimal form, the 45-character form with a case-insensitive
"urn:uuid:" prefix and canonical remainder, the 38-character form
whose positions 1-36 are canonical (the wrapping braces are not
themselves verified), or 32 undashed hexadecimal digits. Every other
string, including the empty string, is rejected with
`ErrExecutionIDInvalid`. -/
theorem C9_amended_uuid_validation (s : String) :
    executionIDValidate s = Except.ok () ↔ acceptedUuidShapes s = true := by
  rw [← goUuidParseOk_eq_acceptedShapes]
  unfold executionIDValidate
  by_cases hempty : s = ""
  · subst hempty
    rw [if_pos rfl]
    simp [show goUuidParseOk "" = false from rfl]
  · rw [if_neg hempty]
    cases hb : goUuidParseOk s
    · simp [hb]
    · simp [hb]

end Briefkit
